import Mathlib

/-!
Verification model of the conversational orchestration core of Vastu-Netra-AI
(`src/pages/Index.tsx` and the `useServerLLM` hook it uses).

Strings are modelled as `List Char` so that concatenation and splitting are
structurally transparent.  JSON values are modelled by an inductive `Json`
type together with an executable parser and stringifier standing in for the
platform primitives `JSON.parse` / `JSON.stringify`.  Network I/O is modelled
by explicit environments: a `GenEnv` supplies, per round, the HTTP response of
the chat endpoint and, per tool dispatch, the outcome of the solver backend.
-/

set_option maxRecDepth 8000

namespace VastuNetra

/-- JavaScript strings, modelled as character lists. -/
abbrev JStr := List Char

/-- Coerce a Lean string literal into the model representation. -/
def str (s : String) : JStr := s.data

/-- JS `String.prototype.trim`: drop whitespace from both ends. -/
def trimStr (s : JStr) : JStr :=
  ((s.dropWhile Char.isWhitespace).reverse.dropWhile Char.isWhitespace).reverse

/-- Case-insensitive match of `pat` against a prefix of `s`; returns the rest. -/
def matchCI : JStr → JStr → Option JStr
  | [], s => some s
  | _ :: _, [] => none
  | p :: ps, c :: cs => if c.toLower = p.toLower then matchCI ps cs else none

/-- Scan left-to-right for the first position where `m` succeeds (regex-style
leftmost match). -/
def scanFirst {α : Type} (m : JStr → Option α) : JStr → Option α
  | [] => none
  | c :: rest =>
    match m (c :: rest) with
    | some r => some r
    | none => scanFirst m rest

/-- Find the leftmost case-insensitive occurrence of `pat`; returns the text
before the occurrence and the text after it. -/
def findSubCI (pat : JStr) : JStr → Option (JStr × JStr)
  | [] => none
  | c :: cs =>
    match matchCI pat (c :: cs) with
    | some rest => some ([], rest)
    | none =>
      match findSubCI pat cs with
      | some (pre, rest) => some (c :: pre, rest)
      | none => none

/-- Decimal digits of a natural number. -/
def natToStr (n : Nat) : JStr := Nat.toDigits 10 n

/-- Decimal rendering of an integer. -/
def intToStr (i : Int) : JStr :=
  if i < 0 then '-' :: natToStr i.natAbs else natToStr i.natAbs

/-- Fractional digits of a rational in `[0,1)`, up to `fuel` digits. -/
def ratFrac : Nat → Rat → JStr
  | 0, _ => []
  | fuel + 1, q =>
    if q = 0 then []
    else
      let q10 := q * 10
      let d := Rat.floor q10
      Nat.digitChar d.natAbs :: ratFrac fuel (q10 - (d : Rat))

/-- Decimal rendering of a non-negative rational (JS `Number` to string). -/
def ratToStrNN (q : Rat) : JStr :=
  intToStr (Rat.floor q) ++
    (if q.den = 1 then [] else '.' :: ratFrac 12 (q - (Rat.floor q : Rat)))

/-- Decimal rendering of a rational (JS `Number` to string). -/
def ratToStr (q : Rat) : JStr :=
  if q < 0 then '-' :: ratToStrNN (-q) else ratToStrNN q

/-- JS `Math.round`: round half away from zero is half-up in JS (toward +∞). -/
def jsRound (q : Rat) : Int := Rat.floor (q + 1 / 2)

/-- JSON values (numbers as rationals). -/
inductive Json where
  | jnull : Json
  | jbool : Bool → Json
  | jnum : Rat → Json
  | jstr : JStr → Json
  | jarr : List Json → Json
  | jobj : List (JStr × Json) → Json

/-- Is the value JS `null`? -/
def Json.isNull : Json → Bool
  | .jnull => true
  | _ => false

/-- JS truthiness of a JSON value (no `NaN` representation: numbers are
truthy iff nonzero; objects and arrays are always truthy). -/
def jsTruthy : Json → Bool
  | .jnull => false
  | .jbool b => b
  | .jnum q => !(q == 0)
  | .jstr s => !s.isEmpty
  | .jarr _ => true
  | .jobj _ => true

/-- Literal `{` as model text (JS object display / JSON punctuation). -/
def obrace : JStr := str "\x7b"

/-- Literal `}` as model text. -/
def cbrace : JStr := str "\x7d"

/-- JS string coercion of a JSON value (`String(v)` / template interpolation). -/
def jsToString : Json → JStr
  | .jnull => str "null"
  | .jbool true => str "true"
  | .jbool false => str "false"
  | .jnum q => ratToStr q
  | .jstr s => s
  | .jarr _ => []
  | .jobj _ => str "[object Object]"

/-- Property lookup in a JSON object field list (first binding wins). -/
def lookupField : List (JStr × Json) → JStr → Option Json
  | [], _ => none
  | (k', v) :: rest, k => if k' = k then some v else lookupField rest k

/-- JS property access `o.k` on a value known not to be nullish: objects give
their field (or `undefined` = `none`), primitives and arrays give `undefined`
for the names used by this code. -/
def jget : Json → JStr → Option Json
  | .jobj fs, k => lookupField fs k
  | _, _ => none

/-- JS optional chaining `o?.k`: `none`/`null` flow to `undefined`. -/
def jgetOpt : Option Json → JStr → Option Json
  | some (.jobj fs), k => lookupField fs k
  | _, _ => none

/-- JS `||` chain over possibly-missing values: first truthy value, if any. -/
def firstTruthy : List (Option Json) → Option Json
  | [] => none
  | some v :: xs => if jsTruthy v then some v else firstTruthy xs
  | none :: xs => firstTruthy xs

/-- JS `??` chain: first value that is neither `undefined` nor `null`. -/
def nullishChain : List (Option Json) → Option Json
  | [] => none
  | some v :: xs => if v.isNull then nullishChain xs else some v
  | none :: xs => nullishChain xs

/-- Escape one character for a JSON string literal. -/
def escapeChar (c : Char) : JStr :=
  if c = '"' then ['\\', '"']
  else if c = '\\' then ['\\', '\\']
  else if c = '\n' then ['\\', 'n']
  else if c = '\r' then ['\\', 'r']
  else if c = '\t' then ['\\', 't']
  else [c]

/-- Escape a whole string for a JSON string literal. -/
def escapeStr (s : JStr) : JStr := (s.map escapeChar).flatten

mutual

/-- Model of `JSON.stringify` (fields with `undefined` values never occur:
the embedding drops them at construction sites, as `JSON.stringify` would). -/
def jsonStringify : Json → JStr
  | .jnull => str "null"
  | .jbool true => str "true"
  | .jbool false => str "false"
  | .jnum q => ratToStr q
  | .jstr s => '"' :: (escapeStr s ++ ['"'])
  | .jarr xs => '[' :: (stringifyArr xs ++ [']'])
  | .jobj fs => obrace ++ stringifyObj fs ++ cbrace

/-- Comma-separated stringification of array elements. -/
def stringifyArr : List Json → JStr
  | [] => []
  | [x] => jsonStringify x
  | x :: y :: xs => jsonStringify x ++ ',' :: stringifyArr (y :: xs)

/-- Comma-separated stringification of object fields. -/
def stringifyObj : List (JStr × Json) → JStr
  | [] => []
  | [(k, v)] => '"' :: (escapeStr k ++ '"' :: ':' :: jsonStringify v)
  | (k, v) :: f :: fs =>
    '"' :: (escapeStr k ++ '"' :: ':' :: jsonStringify v) ++ ',' :: stringifyObj (f :: fs)

end

/-- JSON whitespace test. -/
def isJsonWs (c : Char) : Bool := c == ' ' || c == '\n' || c == '\t' || c == '\r'

/-- Skip JSON whitespace. -/
def skipWs (s : JStr) : JStr := s.dropWhile isJsonWs

/-- Greedy digit run; requires at least one digit. -/
def parseDigits : JStr → Option (Nat × Nat × JStr)
  | c :: cs =>
    if c.isDigit then
      match parseDigits cs with
      | some (v, k, rest) => some ((c.toNat - 48) * 10 ^ k + v, k + 1, rest)
      | none => some (c.toNat - 48, 1, cs)
    else none
  | [] => none

/-- Parse an optionally-signed decimal number `-?digits(.digits)?`. -/
def parseNumber (s : JStr) : Option (Rat × JStr) :=
  let (neg, s1) := match s with
    | '-' :: rest => (true, rest)
    | _ => (false, s)
  match parseDigits s1 with
  | none => none
  | some (ip, _, s2) =>
    let (q, s3) := match s2 with
      | '.' :: s2' =>
        match parseDigits s2' with
        | some (fp, k, s4) => (((ip : Rat) + (fp : Rat) / ((10 : Rat) ^ k)), s4)
        | none => ((ip : Rat), '.' :: s2')
      | _ => ((ip : Rat), s2)
    some (if neg then -q else q, s3)

/-- Decode one escape character of a JSON string literal. -/
def unescapeChar (c : Char) : Option Char :=
  if c = '"' then some '"'
  else if c = '\\' then some '\\'
  else if c = '/' then some '/'
  else if c = 'n' then some '\n'
  else if c = 'r' then some '\r'
  else if c = 't' then some '\t'
  else none

/-- Parse the body of a JSON string literal (opening quote consumed). -/
def parseStrBody : JStr → Option (JStr × JStr)
  | [] => none
  | '"' :: rest => some ([], rest)
  | '\\' :: c :: rest =>
    match unescapeChar c with
    | some d =>
      match parseStrBody rest with
      | some (b, r) => some (d :: b, r)
      | none => none
    | none => none
  | c :: rest =>
    match parseStrBody rest with
    | some (b, r) => some (c :: b, r)
    | none => none

mutual

/-- Fueled JSON value parser (model of `JSON.parse`). -/
def parseVal : Nat → JStr → Option (Json × JStr)
  | 0, _ => none
  | fuel + 1, s =>
    match skipWs s with
    | [] => none
    | c :: rest =>
      if c = '"' then
        match parseStrBody rest with
        | some (b, r) => some (Json.jstr b, r)
        | none => none
      else if c = 't' then
        match matchCI (str "rue") rest with
        | some r => some (Json.jbool true, r)
        | none => none
      else if c = 'f' then
        match matchCI (str "alse") rest with
        | some r => some (Json.jbool false, r)
        | none => none
      else if c = 'n' then
        match matchCI (str "ull") rest with
        | some r => some (Json.jnull, r)
        | none => none
      else if c = '[' then
        match skipWs rest with
        | ']' :: r => some (Json.jarr [], r)
        | s' => parseItems fuel s'
      else if c = obrace.headD ' ' then
        match skipWs rest with
        | d :: r => if d = cbrace.headD ' ' then some (Json.jobj [], r) else parseFields fuel (d :: r)
        | [] => none
      else
        match parseNumber (c :: rest) with
        | some (q, r) => some (Json.jnum q, r)
        | none => none

/-- Parse one-or-more array items up to `]`. -/
def parseItems : Nat → JStr → Option (Json × JStr)
  | 0, _ => none
  | fuel + 1, s =>
    match parseVal fuel s with
    | none => none
    | some (v, rest) =>
      match skipWs rest with
      | ',' :: r =>
        match parseItems fuel r with
        | some (Json.jarr vs, r') => some (Json.jarr (v :: vs), r')
        | _ => none
      | ']' :: r => some (Json.jarr [v], r)
      | _ => none

/-- Parse one-or-more object fields up to `}`. -/
def parseFields : Nat → JStr → Option (Json × JStr)
  | 0, _ => none
  | fuel + 1, s =>
    match skipWs s with
    | '"' :: rest =>
      match parseStrBody rest with
      | none => none
      | some (k, r1) =>
        match skipWs r1 with
        | ':' :: r2 =>
          match parseVal fuel r2 with
          | none => none
          | some (v, r3) =>
            match skipWs r3 with
            | ',' :: r4 =>
              match parseFields fuel r4 with
              | some (Json.jobj fs, r') => some (Json.jobj ((k, v) :: fs), r')
              | _ => none
            | d :: r4 => if d = cbrace.headD ' ' then some (Json.jobj [(k, v)], r4) else none
            | [] => none
        | _ => none
    | _ => none

end

/-- Model of `JSON.parse`: whole-input parse, `none` on any syntax error. -/
def jsonParse (s : JStr) : Option Json :=
  match parseVal (4 * s.length + 8) s with
  | some (v, rest) => if skipWs rest = [] then some v else none
  | none => none


/-! ### Stream frame decoding (hook `generateResponse`, lines 1176-1184 / 1363-1367)

The read loop appends each chunk to `streamBuffer`, splits on `/\r?\n/`,
keeps the last (possibly incomplete) segment in the buffer and processes the
complete segments; any residual buffer at stream end is treated as one final
record.  `rawSplit` models the split at `'\n'` with the optional preceding
`'\r'` handled by `stripCR` on each completed segment, exactly as the regex
consumes it. -/

/-- Split a text into the segments before each `'\n'` (un-stripped) and the
trailing segment after the last `'\n'` (the stream buffer). -/
def rawSplit : JStr → List JStr × JStr
  | [] => ([], [])
  | c :: cs =>
    if c = '\n' then ([] :: (rawSplit cs).1, (rawSplit cs).2)
    else
      match rawSplit cs with
      | (r :: rs', b) => ((c :: r) :: rs', b)
      | ([], b) => ([], c :: b)

/-- Drop one trailing `'\r'` (the `\r?` of the delimiter `/\r?\n/`). -/
def stripCR (s : JStr) : JStr :=
  if s.getLast? = some '\r' then s.dropLast else s

/-- How the results of splitting two texts compose into the split of their
concatenation. -/
def splitCombine (p q : List JStr × JStr) : List JStr × JStr :=
  match q.1 with
  | [] => (p.1, p.2 ++ q.2)
  | r :: rs => (p.1 ++ (p.2 ++ r) :: rs, q.2)

/-- One chunk arriving: split buffer+chunk, emit the complete records
(CR-stripped), keep the trailing segment as the new buffer. -/
def chunkRecords (buf chunk : JStr) : List JStr × JStr :=
  ((rawSplit (buf ++ chunk)).1.map stripCR, (rawSplit (buf ++ chunk)).2)

/-- Process a whole chunk sequence, threading the buffer. -/
def runChunks : JStr → List JStr → List JStr × JStr
  | buf, [] => ([], buf)
  | buf, ch :: chs =>
    ((chunkRecords buf ch).1 ++ (runChunks (chunkRecords buf ch).2 chs).1,
     (runChunks (chunkRecords buf ch).2 chs).2)

/-- Full decode of a chunked stream: complete records in order, plus the
residual buffer as one final record when its trimmed form is nonempty
(`if (streamBuffer && streamBuffer.trim().length > 0)`). -/
def decodeAll (chunks : List JStr) : List JStr :=
  (runChunks [] chunks).1 ++
    (if trimStr (runChunks [] chunks).2 = [] then [] else [(runChunks [] chunks).2])


/-! ### Byte-level chunk decoding (`new TextDecoder()` line 1156, `decoder.decode(value)` line 1176)

The read loop decodes every received byte chunk with `decoder.decode(value)`
WITHOUT the stream option, so each call processes its chunk as a complete
UTF-8 stream: an incomplete multi-byte sequence at the end of a chunk is
flushed to U+FFFD, orphaned continuation bytes at the start of the next chunk
decode to further U+FFFD, and one leading byte-order mark is stripped per
call.  The WHATWG UTF-8 decoder (non-fatal mode, as `new TextDecoder()`
defaults) is embedded below. -/

/-- The replacement character U+FFFD emitted by a non-fatal text decoder on a
malformed byte sequence. -/
def fffdChar : Char := Char.ofNat 0xFFFD

/-- The byte-order mark code point U+FEFF. -/
def bomChar : Char := Char.ofNat 0xFEFF

/-- State of the WHATWG UTF-8 decoder: continuation bytes still needed and
already seen, the partial code point, and the admissible range for the next
continuation byte. -/
structure Utf8St where
  needed : Nat
  seen : Nat
  cp : Nat
  lo : Nat
  hi : Nat

/-- The initial decoder state. -/
def utf8InitSt : Utf8St := ⟨0, 0, 0, 0x80, 0xBF⟩

/-- One byte consumed in the initial state (bytes needed is zero): an ASCII
byte is emitted, a well-formed lead byte opens a multi-byte sequence with its
continuation-byte range, any other byte is an error emitting U+FFFD. -/
def utf8Init (b : Nat) : List Char × Utf8St :=
  if b ≤ 0x7F then ([Char.ofNat b], utf8InitSt)
  else if 0xC2 ≤ b ∧ b ≤ 0xDF then ([], ⟨1, 0, b % 0x20, 0x80, 0xBF⟩)
  else if b = 0xE0 then ([], ⟨2, 0, b % 0x10, 0xA0, 0xBF⟩)
  else if 0xE1 ≤ b ∧ b ≤ 0xEC then ([], ⟨2, 0, b % 0x10, 0x80, 0xBF⟩)
  else if b = 0xED then ([], ⟨2, 0, b % 0x10, 0x80, 0x9F⟩)
  else if 0xEE ≤ b ∧ b ≤ 0xEF then ([], ⟨2, 0, b % 0x10, 0x80, 0xBF⟩)
  else if b = 0xF0 then ([], ⟨3, 0, b % 8, 0x90, 0xBF⟩)
  else if 0xF1 ≤ b ∧ b ≤ 0xF3 then ([], ⟨3, 0, b % 8, 0x80, 0xBF⟩)
  else if b = 0xF4 then ([], ⟨3, 0, b % 8, 0x80, 0x8F⟩)
  else ([fffdChar], utf8InitSt)

/-- One decoder step: in the initial state defer to `utf8Init`; inside a
sequence an in-range continuation byte extends the code point (emitting it
when complete), and an out-of-range byte is an error that emits U+FFFD and
reconsumes the byte in the initial state. -/
def utf8Consume (st : Utf8St) (b : Nat) : List Char × Utf8St :=
  if st.needed = 0 then utf8Init b
  else if st.lo ≤ b ∧ b ≤ st.hi then
    if st.seen + 1 = st.needed then
      ([Char.ofNat (st.cp * 64 + b % 64)], utf8InitSt)
    else
      ([], ⟨st.needed, st.seen + 1, st.cp * 64 + b % 64, 0x80, 0xBF⟩)
  else
    (fffdChar :: (utf8Init b).1, (utf8Init b).2)

/-- Run the decoder over a byte list from a given state, collecting the
emitted characters and the final state. -/
def utf8Run (st : Utf8St) : List Nat → List Char × Utf8St
  | [] => ([], st)
  | b :: bs =>
    ((utf8Consume st b).1 ++ (utf8Run (utf8Consume st b).2 bs).1,
     (utf8Run (utf8Consume st b).2 bs).2)

/-- Decode a whole byte list as one complete stream: run from the initial
state and flush a pending incomplete sequence at end of input to U+FFFD. -/
def utf8DecodeFlush (bs : List Nat) : List Char :=
  if (utf8Run utf8InitSt bs).2.needed = 0 then (utf8Run utf8InitSt bs).1
  else (utf8Run utf8InitSt bs).1 ++ [fffdChar]

/-- Strip one leading byte-order mark from a decoded text, as a UTF-8
`TextDecoder` with its default unset ignoreBOM flag does at stream start. -/
def stripBOMChar : List Char → List Char
  | [] => []
  | c :: cs => if c = bomChar then cs else c :: cs

/-- Model of one `decoder.decode(value)` call without the stream option:
decode the chunk as a complete stream, then strip a leading byte-order
mark. -/
def utf8DecodeCall (bs : List Nat) : List Char := stripBOMChar (utf8DecodeFlush bs)

/-- Full decode of a byte-chunked stream: each chunk is decoded by its own
`decode()` call and the decoded texts feed the line decoder. -/
def decodeAllB (byteChunks : List (List Nat)) : List JStr :=
  decodeAll (byteChunks.map utf8DecodeCall)

/-- A byte chunk that leaves the decoder in its initial state: no multi-byte
sequence runs over the chunk boundary. -/
def utf8Complete (bs : List Nat) : Bool := (utf8Run utf8InitSt bs).2.needed == 0

/-- A decoded text that does not begin with the byte-order mark. -/
def noBOMout : List Char → Bool
  | [] => true
  | c :: _ => if c = bomChar then false else true

/-- A byte chunk on which a per-chunk `decode()` call agrees with decoding in
context: it ends at a character boundary and does not decode to a leading
byte-order mark. -/
def utf8CleanChunk (bs : List Nat) : Bool :=
  utf8Complete bs && noBOMout (utf8DecodeFlush bs)



/-! ### Response sanitizer (`cleanThinkingContent`, hook lines 1007-1053) -/

/-- The `<think>` delimiter. -/
def thinkOpenTag : JStr := str "<think>"

/-- The `</think>` delimiter. -/
def thinkCloseTag : JStr := str "</think>"

/-- Capture group of `text.match(/<think>([\s\S]*?)<\/think>/i)`: the text
between the leftmost `<think>` and the nearest following `</think>`. -/
def thinkMatchGroup (text : JStr) : Option JStr :=
  match findSubCI thinkOpenTag text with
  | none => none
  | some (_, afterOpen) =>
    match findSubCI thinkCloseTag afterOpen with
    | none => none
    | some (inner, _) => some inner

/-- Model of `text.replace(/<think>[\s\S]*?<\/think>/gi, '')`. -/
def removeThinkBlocks : Nat → JStr → JStr
  | 0, s => s
  | fuel + 1, s =>
    match findSubCI thinkOpenTag s with
    | none => s
    | some (pre, afterOpen) =>
      match findSubCI thinkCloseTag afterOpen with
      | none => s
      | some (_, afterClose) => pre ++ removeThinkBlocks fuel afterClose

/-- The literal alternatives of the three `thinkingPatterns` regexes
(all anchored `^...` with flags `im`). -/
def thinkingPatternHeads : List JStr :=
  [str "Okay,", str "Wait,", str "Hmm,", str "Let me think", str "Let me check",
   str "I need to", str "First,", str "So,", str "Actually,",
   str "The user", str "They didn\x27t", str "Since they", str "I should",
   str "I have to", str "I\x27ll", str "Maybe I",
   str "Looking at", str "Checking", str "Analyzing", str "Processing",
   str "Thinking about"]

/-- Line starts for a multiline `^` anchor: positions at the start of the text
and after each line terminator. -/
def splitLinesRN : JStr → List JStr
  | [] => [[]]
  | c :: cs =>
    if c = '\n' ∨ c = '\r' then [] :: splitLinesRN cs
    else
      match splitLinesRN cs with
      | h :: t => (c :: h) :: t
      | [] => [[c]]

/-- Model of `thinkingPatterns.some(p => p.test(mainContent))`. -/
def looksLikeThinking (s : JStr) : Bool :=
  (splitLinesRN s).any fun l => thinkingPatternHeads.any fun p => (matchCI p l).isSome

/-- The collapsible details wrapper built around extracted reasoning. -/
def reasoningWrap (t : JStr) : JStr :=
  str "<details class=\"thinking-container\">\n<summary>💭 View AI Reasoning</summary>\n\n"
    ++ t ++ str "\n\n</details>\n\n"

/-- The fixed fallback sentence returned when nothing useful remains. -/
def fallbackSentence : JStr :=
  str "I\x27ve processed your request. The floor plan has been generated and is displayed in the viewer."

/-- The `(thinkingContent, mainContent)` pair after extraction and the
"main content looks like thinking" move. -/
def cleanParts (text : JStr) : JStr × JStr :=
  let p : JStr × JStr :=
    match thinkMatchGroup text with
    | some inner => (trimStr inner, trimStr (removeThinkBlocks text.length text))
    | none => ([], text)
  if looksLikeThinking p.2 ∧ p.1 = [] then (p.2, []) else p

/-- Assemble the wrapped reasoning block and the main content (lines 1036-1045). -/
def cleanCore (p : JStr × JStr) : JStr :=
  (if p.1 ≠ [] then reasoningWrap p.1 else []) ++ (if p.2 ≠ [] then p.2 else [])

/-- Final guard and trim (lines 1047-1052): substitute the fallback sentence
when nothing useful remains. -/
def cleanFinal (r : JStr) : JStr :=
  trimStr (if trimStr r = [] then fallbackSentence else r)

/-- Model of `cleanThinkingContent` (hook lines 1007-1053). -/
def cleanThinkingContent (text : JStr) : JStr :=
  if text = [] then [] else cleanFinal (cleanCore (cleanParts text))

/-! ### Orchestrator data model (hook `generateResponse`, lines 1055-1561)

Network I/O is a boundary of the shallow embedding: a `GenEnv` fixes what each
`fetch` of the turn returns — per round the streaming chat response (already
cut into the decoded line sequence plus residual buffer, which is exactly what
the verified decoder above yields), per round the non-streaming retry
response, and per executor dispatch the solver backend outcome.  The per-round
stall watchdog only aborts the in-flight stream, and an aborted stream is the
same as one that ends after fewer chunks, so it is subsumed by the
environment delivering a shorter line list. -/

/-- A tool definition as supplied by the caller. -/
structure ToolDef where
  name : JStr
  description : Option JStr
  parameters : Option Json

/-- A message of the rolling message list. -/
structure RMsg where
  role : JStr
  content : JStr
  name : Option Json

/-- What the streaming chat request returns for a round. -/
structure ChatResp where
  ok : Bool
  status : Nat
  lines : List JStr
  residual : JStr

/-- What a non-streaming request returns. -/
structure FlatResp where
  ok : Bool
  status : Nat
  body : Json

/-- Outcome of one executor dispatch against the solver backend:
the first (constraint) call succeeded, or it failed and the graph retry
returned a body, or the whole attempt threw. -/
inductive SolverOutcome where
  | firstOk (body : Json)
  | retriedTo (body : Json)
  | threw (msg : JStr)

/-- The environment of one `generateResponse` call. -/
structure GenEnv where
  chat : Nat → ChatResp
  flat : Nat → FlatResp
  solver : Nat → SolverOutcome

/-- Configuration derived from `LLMConfig` and ambient storage. -/
structure GenCfg where
  isOllama : Bool
  forceDisableToolsDebug : Bool

/-- The observable shape of a chat-endpoint request body: streaming flag,
whether a `tools` list is present, and the `tool_choice` field (absent in the
OpenAI-style body). -/
structure ReqInfo where
  streamMode : Bool
  toolsIncluded : Bool
  toolChoice : Option JStr

/-- One request to the solver backend. -/
structure SolverCall where
  solverType : JStr
  payload : Json

/-- Per tool call, what happened: the catch path of a failed argument
resolution, or a dispatch with its result. -/
inductive TCLog where
  | argsParseError
  | dispatched (result : Json)

/-- The mutable state of the round loop. -/
structure LoopState where
  fullResponse : JStr
  rolling : List RMsg
  rounds : Nat
  haveToolResults : Bool
  lastToolResult : Option Json
  dispatchCount : Nat

/-- Accumulator while processing one round's stream. -/
structure Acc where
  st : LoopState
  encountered : Bool
  chars : Option Nat
  toolLogs : List TCLog
  solverCalls : List SolverCall
  callbacks : Nat

/-- Models `streamedCharsThisRound += content.length`: `none` models the `NaN`
poisoning that `undefined.length` causes for non-string content. -/
def addChars : Option Nat → Option Nat → Option Nat
  | some a, some b => some (a + b)
  | _, _ => none

/-- The `content.length` value for a truthy content value. -/
def contentLen : Json → Option Nat
  | .jstr s => some s.length
  | _ => none

/-- Model of `parsed.choices?.[0]`-style indexing under optional chaining. -/
def jidxOpt : Option Json → Nat → Option Json
  | some (.jarr xs), i => xs.get? i
  | _, _ => none

/-- Main-loop content chain
`parsed.message?.content || parsed.response || parsed.content || parsed.text`. -/
def lineContentChain (parsed : Json) : Option Json :=
  firstTruthy [jgetOpt (jget parsed (str "message")) (str "content"),
               jget parsed (str "response"), jget parsed (str "content"),
               jget parsed (str "text")]

/-- Residual content chain (also accepts the `thinking` fields). -/
def residualContentChain (parsed : Json) : Option Json :=
  firstTruthy [jgetOpt (jget parsed (str "message")) (str "content"),
               jgetOpt (jget parsed (str "message")) (str "thinking"),
               jget parsed (str "response"), jget parsed (str "thinking"),
               jget parsed (str "content"), jget parsed (str "text")]

/-- Model of `parsed.message?.tool_calls || parsed.tool_calls`, then
`Array.isArray(toolCalls) && toolCalls.length > 0`. -/
def toolCallsOf (parsed : Json) : List Json :=
  match firstTruthy [jgetOpt (jget parsed (str "message")) (str "tool_calls"),
                     jget parsed (str "tool_calls")] with
  | some (.jarr (x :: xs)) => x :: xs
  | _ => []

/-- The geometric presets table for room-type tokens (lines 1268-1276):
width, height, semantic type, display name. -/
def roomDefaults : List (JStr × (Rat × Rat × JStr × JStr)) :=
  [(str "living_room", (10, 10, str "living", str "Living Room")),
   (str "living", (10, 10, str "living", str "Living Room")),
   (str "kitchen", (8, 8, str "kitchen", str "Kitchen")),
   (str "master_bedroom", (14, 12, str "master_bedroom", str "Master Bedroom")),
   (str "bedroom", (12, 10, str "bedroom", str "Bedroom")),
   (str "bathroom", (6, 6, str "bathroom", str "Bathroom")),
   (str "pooja_room", (6, 6, str "pooja", str "Pooja Room"))]

/-- Association lookup in the presets table. -/
def lookupDefault : List (JStr × (Rat × Rat × JStr × JStr)) → JStr →
    Option (Rat × Rat × JStr × JStr)
  | [], _ => none
  | (k', v) :: rest, k => if k' = k then some v else lookupDefault rest k

/-- Model of `k.split(' ').join('_')`. -/
def spacesToUnderscores (s : JStr) : JStr :=
  s.map fun c => if c = ' ' then '_' else c

/-- One room object of the executor payload. -/
def mkRoomJson (id : JStr) (name : Json) (ty : JStr) (w h : Rat) : Json :=
  Json.jobj [(str "id", Json.jstr id), (str "name", name), (str "type", Json.jstr ty),
             (str "width", Json.jnum w), (str "height", Json.jnum h),
             (str "x", Json.jnum 0), (str "y", Json.jnum 0)]

/-- Model of `roomsNeeded.map((key, idx) => ...)` with preset lookup and the generic
8×8 fallback box keeping the raw token (lines 1277-1281). -/
def buildBaseRoom (idx : Nat) (key : Json) : Json :=
  let k := (jsToString key).map Char.toLower
  match lookupDefault roomDefaults k with
  | some (w, h, ty, nm) => mkRoomJson (k ++ '_' :: natToStr (idx + 1)) (Json.jstr nm) ty w h
  | none =>
    match lookupDefault roomDefaults (spacesToUnderscores k) with
    | some (w, h, ty, nm) => mkRoomJson (k ++ '_' :: natToStr (idx + 1)) (Json.jstr nm) ty w h
    | none => mkRoomJson (k ++ '_' :: natToStr (idx + 1)) key k 8 8

/-- JS `Number(x)` on a JSON value (`none` = `NaN`). -/
def jsNumber : Json → Option Rat
  | .jnum q => some q
  | .jnull => some 0
  | .jbool b => some (if b then 1 else 0)
  | .jstr s =>
    if trimStr s = [] then some 0
    else match parseNumber (trimStr s) with
         | some (q, []) => some q
         | _ => none
  | .jarr [] => some 0
  | .jarr [x] => jsNumber x
  | .jarr (_ :: _ :: _) => none
  | .jobj _ => none

/-- Model of `Number(v) || d` (`undefined`, `NaN` and `0` all fall back to `d`). -/
def numOr (v : Option Json) (d : Rat) : Rat :=
  match v with
  | none => d
  | some j =>
    match jsNumber j with
    | some q => if q = 0 then d else q
    | none => d

/-- Spread update `\x7b...payload, solver_type: t\x7d`. -/
def setSolverType (p : Json) (t : JStr) : Json :=
  match p with
  | .jobj fs => .jobj (fs.map fun kv => if kv.1 = str "solver_type" then (kv.1, Json.jstr t) else kv)
  | j => j

/-- The generate request payload built by the executor (lines 1262-1290). -/
def toolPayload (args : Json) : Json :=
  let dims : List Json :=
    match jget args (str "plot_dimensions") with
    | some (.jarr xs) => xs
    | _ => [Json.jnum 30, Json.jnum 30]
  let width := numOr (dims.get? 0) 30
  let length := numOr (dims.get? 1) 30
  let orientation : Option JStr :=
    match jget args (str "orientation") with
    | some (.jstr s) => some s
    | _ => none
  let roomsNeeded : List Json :=
    match jget args (str "rooms_needed") with
    | some (.jarr xs) => xs
    | _ => []
  Json.jobj
    ([(str "rooms", Json.jarr (roomsNeeded.mapIdx buildBaseRoom)),
      (str "plotWidth", Json.jnum width),
      (str "plotLength", Json.jnum length),
      (str "plotShape", Json.jstr (str "rectangular")),
      (str "solver_type", Json.jstr (str "constraint"))] ++
     (match orientation with
      | some o =>
        if o = [] then []
        else [(str "constraints", Json.jobj [(str "house_facing", Json.jstr o)])]
      | none => []))

/-- The executor's own error result (line 1314). -/
def backendErrResult (msg : JStr) : Json :=
  Json.jobj [(str "status", Json.jstr (str "error")),
             (str "message", Json.jstr (if msg = [] then str "Backend generation failed" else msg))]

/-- The `'No handler'` default result (line 1253). -/
def noHandlerResult : Json :=
  Json.jobj [(str "status", Json.jstr (str "error")),
             (str "message", Json.jstr (str "No handler"))]

/-- Executor dispatch: constraint call first, one graph retry when it returns
non-2xx, result taken from the (last) response body; exceptions become a
structured error result (lines 1292-1315). -/
def executeGenerate (env : GenEnv) (idx : Nat) (payload : Json) : Json × List SolverCall :=
  match env.solver idx with
  | .firstOk body => (body, [⟨str "constraint", payload⟩])
  | .retriedTo body =>
    (body, [⟨str "constraint", payload⟩, ⟨str "graph", setSolverType payload (str "graph")⟩])
  | .threw msg => (backendErrResult msg, [⟨str "constraint", payload⟩])

/-- Resolution of `toolCall.function?.arguments ?? toolCall.arguments` then the
string/object/other resolution of the argument value (lines 1244-1252):
a string goes through `JSON.parse` (whose failure is the catch path), an
object (including `null` and arrays) passes through, anything else becomes
the empty structure. -/
def argsOf : Json → Option Json
  | .jstr s => jsonParse s
  | .jobj fs => some (.jobj fs)
  | .jarr xs => some (.jarr xs)
  | .jnull => some .jnull
  | .jnum _ => some (Json.jobj [])
  | .jbool _ => some (Json.jobj [])

/-- Result of processing one tool call of a streamed record. -/
structure TCResult where
  log : TCLog
  solverCalls : List SolverCall
  toolMsg : Option RMsg
  consumedSolver : Bool
  callback : Bool

/-- The catch path (line 1326): log `[ToolArgsParseError]`, no dispatch, no
callback, no message. -/
def skipTC : TCResult := ⟨.argsParseError, [], none, false, false⟩

/-- Test `toolCall.function.name === 'generate_layout_hybrid'` (line 1261). -/
def isGenName : Option Json → Bool
  | some (.jstr s) => s = str "generate_layout_hybrid"
  | _ => false

/-- The dispatch stage of one tool call (lines 1253-1325): run the executor
for `generate_layout_hybrid`, keep the `'No handler'` error result otherwise;
in both cases the callback fires and a tool message is produced. -/
def dispatchTC (env : GenEnv) (idx : Nat) (args : Json) (nameV : Option Json) : TCResult :=
  if isGenName nameV then
    ⟨.dispatched (executeGenerate env idx (toolPayload args)).1,
     (executeGenerate env idx (toolPayload args)).2,
     some ⟨str "tool", jsonStringify (executeGenerate env idx (toolPayload args)).1, nameV⟩,
     true, true⟩
  else
    ⟨.dispatched noHandlerResult, [],
     some ⟨str "tool", jsonStringify noHandlerResult, nameV⟩, false, true⟩

/-- Default chain `toolCall.function?.arguments ?? toolCall.arguments` (line 1245). -/
def rawArgsOf (tc : Json) : Json :=
  match nullishChain [jgetOpt (jget tc (str "function")) (str "arguments"),
                      jget tc (str "arguments")] with
  | some v => v
  | none => Json.jstr (obrace ++ cbrace)

/-- Process one tool call of a streamed record (lines 1241-1330).  The early
exits model the exceptions the surrounding `try` swallows: a `null` array
element, an unparsable argument string, `Object.keys(null)` in the debug log,
and `toolCall.function.name` on a missing `function` field. -/
def processToolCall (env : GenEnv) (idx : Nat) (tc : Json) : TCResult :=
  if tc.isNull then skipTC
  else
    match argsOf (rawArgsOf tc) with
    | none => skipTC
    | some args =>
      if args.isNull then skipTC
      else
        match jget tc (str "function") with
        | none => skipTC
        | some fv =>
          if fv.isNull then skipTC
          else dispatchTC env idx args (jget fv (str "name"))

/-- Append a truthy content value: `fullResponse += content`,
`streamedCharsThisRound += content.length`. -/
def accAddContent (a : Acc) (v : Json) : Acc :=
  { a with st := { a.st with fullResponse := a.st.fullResponse ++ jsToString v },
           chars := addChars a.chars (contentLen v) }

/-- Fold one processed tool call into the round accumulator
(lines 1318-1325: `onToolCall`, tool message push, `haveToolResults`,
`lastToolResult`). -/
def applyToolCall (env : GenEnv) (a : Acc) (tc : Json) : Acc :=
  let r := processToolCall env a.st.dispatchCount tc
  { st := { a.st with
      rolling := a.st.rolling ++ (match r.toolMsg with | some m => [m] | none => []),
      haveToolResults := a.st.haveToolResults || r.toolMsg.isSome,
      lastToolResult := (match r.log with
                         | .dispatched res => some res
                         | .argsParseError => a.st.lastToolResult),
      dispatchCount := a.st.dispatchCount + (if r.consumedSolver then 1 else 0) },
    encountered := a.encountered,
    chars := a.chars,
    toolLogs := a.toolLogs ++ [r.log],
    solverCalls := a.solverCalls ++ r.solverCalls,
    callbacks := a.callbacks + (if r.callback then 1 else 0) }

/-- Tool-call handling of one parsed Ollama record (lines 1237-1331): when
the record carries a nonempty tool-call array, mark the round and dispatch
each call in order. -/
def applyOllamaToolCalls (env : GenEnv) (a : Acc) (parsed : Json) : Acc :=
  if (toolCallsOf parsed).isEmpty then a
  else (toolCallsOf parsed).foldl (applyToolCall env) { a with encountered := true }

/-- Process one complete line in the Ollama dialect (lines 1186-1341):
unparsable lines are skipped, content is accumulated, tool calls mark the
round and are dispatched in order. -/
def applyOllamaLine (env : GenEnv) (a : Acc) (line : JStr) : Acc :=
  match jsonParse line with
  | none => a
  | some parsed =>
    if parsed.isNull then a
    else
      applyOllamaToolCalls env
        (match lineContentChain parsed with
         | some v => accAddContent a v
         | none => a) parsed

/-- Process one complete line in the OpenAI event-stream dialect
(lines 1342-1359). -/
def applyOpenAILine (a : Acc) (line : JStr) : Acc :=
  if (str "data: ").isPrefixOf line then
    if line.drop 6 = str "[DONE]" then a
    else
      match jsonParse (line.drop 6) with
      | none => a
      | some parsed =>
        if parsed.isNull then a
        else
          match jgetOpt (jgetOpt (jidxOpt (jget parsed (str "choices")) 0) (str "delta"))
                  (str "content") with
          | some v => if jsTruthy v then accAddContent a v else a
          | none => a
  else a

/-- Residual tool-call handling (lines 1399-1420): the tool calls only set
`encounteredToolCall`; the residual loop logs them and discards everything
else, so nothing is dispatched, appended or called back. -/
def residualMarkToolCalls (a : Acc) (parsed : Json) : Acc :=
  if (toolCallsOf parsed).isEmpty then a else { a with encountered := true }

/-- Residual-buffer processing in the Ollama dialect (lines 1366-1420): text
content is still accumulated, and tool calls in the residual record set
`encounteredToolCall` but are never dispatched — the residual loop only logs
them and its per-call state is discarded. -/
def applyResidualOllama (a : Acc) (residual : JStr) : Acc :=
  match jsonParse residual with
  | none => a
  | some parsed =>
    if parsed.isNull then a
    else
      residualMarkToolCalls
        (match residualContentChain parsed with
         | some v => accAddContent a v
         | none => a) parsed

/-- Residual-buffer processing in the OpenAI dialect (lines 1421-1437). -/
def applyResidualOpenAI (a : Acc) (residual : JStr) : Acc :=
  if (str "data: ").isPrefixOf residual then
    if residual.drop 6 = str "[DONE]" then a
    else
      match jsonParse (residual.drop 6) with
      | none => a
      | some parsed =>
        if parsed.isNull then a
        else
          match firstTruthy
              [jgetOpt (jgetOpt (jidxOpt (jget parsed (str "choices")) 0) (str "delta"))
                 (str "content"),
               jgetOpt (jgetOpt (jidxOpt (jget parsed (str "choices")) 0) (str "message"))
                 (str "content")] with
          | some v => accAddContent a v
          | none => a
  else a

/-- Residual handling guard `if (streamBuffer && streamBuffer.trim().length > 0)`. -/
def applyResidual (cfg : GenCfg) (a : Acc) (residual : JStr) : Acc :=
  if residual = [] then a
  else if trimStr residual = [] then a
  else if cfg.isOllama then applyResidualOllama a residual
  else applyResidualOpenAI a residual

/-- Streaming request body shape (lines 1108-1145). -/
def mkStreamReq (cfg : GenCfg) (tools : Option (List ToolDef)) (disable : Bool) : ReqInfo :=
  if cfg.isOllama then
    { streamMode := true,
      toolsIncluded := !disable && (match tools with | some ts => !ts.isEmpty | none => false),
      toolChoice := some (if disable then str "none" else str "auto") }
  else
    { streamMode := true, toolsIncluded := false, toolChoice := none }

/-- Non-streaming retry body shape (lines 1466-1497); note the missing
length-0 check on `ollamaTools`. -/
def mkFlatReq (cfg : GenCfg) (tools : Option (List ToolDef)) (disable : Bool) : ReqInfo :=
  if cfg.isOllama then
    { streamMode := false,
      toolsIncluded := (match tools with | some _ => !disable | none => false),
      toolChoice := some (if disable then str "none" else str "auto") }
  else
    { streamMode := false, toolsIncluded := false, toolChoice := none }

/-- Ollama content chain of the non-streaming retry (lines 1501-1507). -/
def flatOllamaContent (body : Json) : Option Json :=
  firstTruthy [jgetOpt (jgetOpt (some body) (str "message")) (str "content"),
               jgetOpt (jgetOpt (some body) (str "message")) (str "thinking"),
               jgetOpt (some body) (str "response"), jgetOpt (some body) (str "thinking"),
               jgetOpt (some body) (str "content"), jgetOpt (some body) (str "text")]

/-- OpenAI content of the non-streaming retry (line 1513). -/
def flatOpenAIContent (body : Json) : Option Json :=
  match jgetOpt (jgetOpt (jidxOpt (jgetOpt (some body) (str "choices")) 0) (str "message"))
      (str "content") with
  | some v => if jsTruthy v then some v else none
  | none => none

/-- The steering message appended after a tool round (lines 1449-1458). -/
def nudgeText : JStr :=
  str "Tool execution complete. Now provide an INTERACTIVE response that includes:\n1. A brief summary of what was created (room count, plot size, key features)\n2. Vastu compliance highlights (what\x27s good and what could be improved)\n3. Ask 1-2 SPECIFIC questions like: \"Do you prefer open or enclosed kitchen?\" or \"Would you like attached bathrooms?\"\n4. Offer 2-3 specific suggestions: \"I can move the master bedroom to SW for better Vastu\" or \"Should I add a study room?\"\n\nBe conversational and engaging. Do NOT call any tools again."

/-- The steering message as a rolling-list entry. -/
def nudgeMsg : RMsg := ⟨str "assistant", nudgeText, none⟩

/-- Log of one executed round. -/
structure RoundLog where
  requests : List ReqInfo
  encountered : Bool
  streamedChars : Option Nat
  toolLogs : List TCLog
  solverCalls : List SolverCall
  callbacks : Nat
  threw : Bool

/-- Result of one round: its log, the successor state, a thrown error, and
whether the loop continues. -/
structure RoundOut where
  log : RoundLog
  st : LoopState
  thrown : Option JStr
  cont : Bool

/-- Per-line processing, dispatching on the dialect. -/
def roundStep (cfg : GenCfg) (env : GenEnv) (a : Acc) (l : JStr) : Acc :=
  if cfg.isOllama then applyOllamaLine env a l else applyOpenAILine a l

/-- The round-local accumulator at round start. -/
def initAcc (st : LoopState) : Acc := ⟨st, false, some 0, [], [], 0⟩

/-- Accumulator after streaming all lines and the residual of the round. -/
def roundAcc (cfg : GenCfg) (env : GenEnv) (st : LoopState) : Acc :=
  applyResidual cfg
    ((env.chat st.rounds).lines.foldl (roundStep cfg env) (initAcc st))
    (env.chat st.rounds).residual

/-- Content returned by the non-streaming retry, when it is 2xx
(lines 1498-1518). -/
def flatRetryContent (cfg : GenCfg) (env : GenEnv) (roundIdx : Nat) : Option Json :=
  if (env.flat roundIdx).ok then
    (if cfg.isOllama then flatOllamaContent (env.flat roundIdx).body
     else flatOpenAIContent (env.flat roundIdx).body)
  else none

/-- State after the non-streaming retry: append whatever content it yielded
(lines 1498-1523). -/
def flatRetryState (cfg : GenCfg) (env : GenEnv) (roundIdx : Nat) (s : LoopState) : LoopState :=
  match flatRetryContent cfg env roundIdx with
  | some v => { s with fullResponse := s.fullResponse ++ jsToString v }
  | none => s

/-- Round termination (lines 1446-1527): loop after a tool round (steering
message appended, counter bumped), otherwise issue the single non-streaming
retry when nothing streamed, otherwise finish. -/
def finishRound (cfg : GenCfg) (tools : Option (List ToolDef)) (env : GenEnv)
    (st : LoopState) (disable : Bool) (req : ReqInfo) (a2 : Acc) : RoundOut :=
  if a2.encountered then
    { log := ⟨[req], true, a2.chars, a2.toolLogs, a2.solverCalls, a2.callbacks, false⟩,
      st := { a2.st with rolling := a2.st.rolling ++ [nudgeMsg], rounds := a2.st.rounds + 1 },
      thrown := none, cont := true }
  else if a2.chars = some 0 then
    { log := ⟨[req, mkFlatReq cfg tools disable], false, a2.chars, a2.toolLogs, a2.solverCalls,
              a2.callbacks, false⟩,
      st := flatRetryState cfg env st.rounds a2.st, thrown := none, cont := false }
  else
    { log := ⟨[req], false, a2.chars, a2.toolLogs, a2.solverCalls, a2.callbacks, false⟩,
      st := a2.st, thrown := none, cont := false }

/-- One round of the `while (rounds < maxRounds)` loop (lines 1092-1527):
build the request (tools suppressed once `haveToolResults` is set), throw on
a non-2xx streaming response, stream and process lines then residual, then
terminate the round. -/
def doRound (cfg : GenCfg) (tools : Option (List ToolDef)) (env : GenEnv)
    (st : LoopState) : RoundOut :=
  let disable := st.haveToolResults || cfg.forceDisableToolsDebug
  let req := mkStreamReq cfg tools disable
  if (env.chat st.rounds).ok = false then
    { log := ⟨[req], false, some 0, [], [], 0, true⟩, st := st,
      thrown := some (str "Server responded with " ++ natToStr (env.chat st.rounds).status),
      cont := false }
  else finishRound cfg tools env st disable req (roundAcc cfg env st)

/-- Result of the whole round loop. -/
structure LoopOut where
  thrown : Option JStr
  st : LoopState
  logs : List RoundLog

/-- The round loop, with fuel `maxRounds - rounds`. -/
def runLoop (cfg : GenCfg) (tools : Option (List ToolDef)) (env : GenEnv) :
    Nat → LoopState → LoopOut
  | 0, st => ⟨none, st, []⟩
  | fuel + 1, st =>
    let r := doRound cfg tools env st
    match r.thrown with
    | some e => ⟨some e, r.st, [r.log]⟩
    | none =>
      if r.cont then
        let rest := runLoop cfg tools env fuel r.st
        ⟨rest.thrown, rest.st, r.log :: rest.logs⟩
      else ⟨none, r.st, [r.log]⟩

/-- The bound `const maxRounds = 3` (line 1081). -/
def maxRounds : Nat := 3

/-- Initial loop state from the caller-supplied message history. -/
def initState (messages : List RMsg) : LoopState := ⟨[], messages, 0, false, none, 0⟩

/-- JS `typeof x === 'object'` on a JSON value. -/
def isObjectType : Json → Bool
  | .jobj _ => true
  | .jarr _ => true
  | .jnull => true
  | _ => false

/-- The deterministic post-loop summary (lines 1533-1536). -/
def synthSummary (last : Json) : JStr :=
  let rooms : Option Nat :=
    match jget last (str "rooms") with
    | some (.jarr xs) => some xs.length
    | _ => none
  let score : Option Int :=
    match jget last (str "score") with
    | some (.jnum q) => some (jsRound q)
    | _ => none
  let solver : Json :=
    match firstTruthy [jget last (str "solver")] with
    | some v => v
    | none => Json.jstr (str "graph")
  str "Generated layout using " ++ jsToString solver ++ str " solver" ++
    (match score with
     | some sc => if sc = 0 then [] else str " (score " ++ intToStr sc ++ str ")"
     | none => []) ++
    str ". Visualized rooms" ++
    (match rooms with
     | some n => if n = 0 then [] else str " (" ++ natToStr n ++ str ")"
     | none => []) ++
    str " have been updated. Summary: 1) Plot parsed and constraints applied; 2) Vastu potential mapping considered; 3) Rule-guided placement optimized; 4) Final vector output rendered."

/-- Condition `!fullResponse && haveToolResults && lastToolResult && typeof lastToolResult === 'object'`
(line 1531). -/
def synthCond (st : LoopState) : Bool :=
  st.fullResponse.isEmpty && st.haveToolResults &&
    (match st.lastToolResult with
     | some j => jsTruthy j && isObjectType j
     | none => false)

/-- The accumulated text after the loop, with the synthesized summary
substituted when the synthesis condition holds (lines 1530-1538). -/
def postLoopText (st : LoopState) : JStr :=
  if synthCond st then
    match st.lastToolResult with
    | some j => synthSummary j
    | none => st.fullResponse
  else st.fullResponse

/-- The whole `generateResponse` call: run the loop, synthesize the summary
when applicable, sanitize, return — or propagate a thrown error (the outer
catch rethrows).  The state and round logs are returned for observation. -/
def generateResponse (cfg : GenCfg) (tools : Option (List ToolDef)) (env : GenEnv)
    (messages : List RMsg) : Except JStr JStr × LoopState × List RoundLog :=
  let out := runLoop cfg tools env maxRounds (initState messages)
  match out.thrown with
  | some e => (Except.error e, out.st, out.logs)
  | none => (Except.ok (cleanThinkingContent (postLoopText out.st)), out.st, out.logs)


/-- Is a per-tool-call log entry a dispatch? -/
def isDispatchLog : TCLog → Bool
  | .dispatched _ => true
  | .argsParseError => false

/-- The repo's own success signal on a tool result
(`result.status === 'success' || result.success === true`, Index.tsx 529). -/
def isSuccessResult (j : Json) : Bool :=
  (match jget j (str "status") with
   | some (.jstr s) => s = str "success"
   | _ => false) ||
  (match jget j (str "success") with
   | some (.jbool true) => true
   | _ => false)

/-- A dispatched tool call whose result carries the success signal. -/
def isSuccessLog : TCLog → Bool
  | .dispatched r => isSuccessResult r
  | .argsParseError => false

/-- A request body with the tool list omitted and tool-choice `'none'`. -/
def reqDisabled (r : ReqInfo) : Bool :=
  !r.toolsIncluded && decide (r.toolChoice = some (str "none"))

/-- After every round that dispatched a tool call, all requests of all later
rounds are tool-suppressed. -/
def suppressedAfterDispatch : List RoundLog → Bool
  | [] => true
  | r :: rest =>
    (!(r.toolLogs.any isDispatchLog) || rest.all fun l => l.requests.all reqDisabled)
      && suppressedAfterDispatch rest

/-- Request discipline of one round: exactly one streaming request, plus
exactly one non-streaming retry iff the round streamed zero characters,
encountered no tool call and did not throw. -/
def retryShape (rl : RoundLog) : Bool :=
  match rl.requests with
  | [a] => a.streamMode && !(decide (rl.streamedChars = some 0) && !rl.encountered && !rl.threw)
  | [a, b] => a.streamMode && !b.streamMode && decide (rl.streamedChars = some 0)
      && !rl.encountered && !rl.threw
  | _ => false

/-- Tool calls of one decoded line as the Ollama round loop sees them. -/
def lineToolCallsOllama (line : JStr) : List Json :=
  match jsonParse line with
  | some p => if p.isNull then [] else toolCallsOf p
  | none => []

/-- The environment promises JSON-object bodies from the solver backend
(the documented backend response shape). -/
def EnvSolverObjs (env : GenEnv) : Prop :=
  ∀ n, match env.solver n with
       | .firstOk b => ∃ fs, b = Json.jobj fs
       | .retriedTo b => ∃ fs, b = Json.jobj fs
       | .threw _ => True

/-- State invariant: once tool results exist the last tool result is present,
and any recorded last tool result is a JSON object. -/
def LastGood (st : LoopState) : Prop :=
  (st.haveToolResults = true → st.lastToolResult.isSome = true) ∧
  (∀ j, st.lastToolResult = some j → ∃ fs, j = Json.jobj fs)

/-- Round-local invariant relating the accumulator to the round-entry state. -/
def AccBase (st0 : LoopState) (a : Acc) : Prop :=
  a.st.rounds = st0.rounds ∧
  (st0.haveToolResults = true → a.st.haveToolResults = true) ∧
  (a.toolLogs.any isDispatchLog = true → a.st.haveToolResults = true)

/-! ### Watchdog fallback (component `handleSend`, lines 303-377)

The heuristic regex extraction is embedded by explicit scanners; the backend
is a two-response environment (first call, optional retry).  Division by zero
yields 0 here where JS gives Infinity; the solver ordering below does not
depend on it. -/

/-- Loose number token `\d+\.?\d*`. -/
def parseNumLoose (s : JStr) : Option (Rat × JStr) :=
  match parseDigits s with
  | none => none
  | some (ip, _, s2) =>
    match s2 with
    | '.' :: s3 =>
      match parseDigits s3 with
      | some (fp, k, s4) => some ((ip : Rat) + (fp : Rat) / ((10 : Rat) ^ k), s4)
      | none => some ((ip : Rat), s3)
    | _ => some ((ip : Rat), s2)

/-- Model of `content.match(/(\d)\s*bhk/i)`: single digit, spaces, `bhk`. -/
def bhkMatchW (content : JStr) : Option Nat :=
  scanFirst (fun s =>
    match s with
    | c :: rest =>
      if c.isDigit then
        (matchCI (str "bhk") (rest.dropWhile Char.isWhitespace)).map fun _ => c.toNat - 48
      else none
    | [] => none) content

/-- Model of `content.match(/(\d+\.?\d*)\s*(sq\s*ft|ft\^2)/i)`. -/
def areaMatchW (content : JStr) : Option Rat :=
  scanFirst (fun s =>
    match parseNumLoose s with
    | none => none
    | some (q, r) =>
      let r1 := r.dropWhile Char.isWhitespace
      match matchCI (str "sq") r1 with
      | some r2 => (matchCI (str "ft") (r2.dropWhile Char.isWhitespace)).map fun _ => q
      | none => (matchCI (str "ft^2") r1).map fun _ => q) content

/-- Model of `content.match(/(\d+\.?\d*)\s*ft\s*width/i)`. -/
def widthMatchW (content : JStr) : Option Rat :=
  scanFirst (fun s =>
    match parseNumLoose s with
    | none => none
    | some (q, r) =>
      match matchCI (str "ft") (r.dropWhile Char.isWhitespace) with
      | some r2 =>
        (matchCI (str "width") (r2.dropWhile Char.isWhitespace)).map fun _ => q
      | none => none) content

/-- Model of `/word\s*facing/i.test(content)`. -/
def testFacing (word : JStr) (content : JStr) : Bool :=
  (scanFirst (fun s =>
    match matchCI word s with
    | some r => matchCI (str "facing") (r.dropWhile Char.isWhitespace)
    | none => none) content).isSome

/-- Bedrooms 1..bhk of the watchdog room list (first is the master). -/
def wdBedrooms (bhk : Nat) : List Json :=
  (List.range bhk).map fun i0 =>
    mkRoomJson (str "bed_" ++ natToStr (i0 + 1)) (Json.jstr (str "Bedroom " ++ natToStr (i0 + 1)))
      (if i0 = 0 then str "master_bedroom" else str "bedroom") 12 10

/-- Bathrooms 1..n of the watchdog room list. -/
def wdBathrooms (n : Nat) : List Json :=
  (List.range n).map fun i0 =>
    mkRoomJson (str "bath_" ++ natToStr (i0 + 1)) (Json.jstr (str "Bathroom " ++ natToStr (i0 + 1)))
      (str "bathroom") 6 6

/-- Environment of one watchdog firing: the two possible backend responses. -/
structure WdEnv where
  first : FlatResp
  second : FlatResp

/-- Observable outcome of one watchdog firing. -/
structure WdLog where
  solverReqs : List SolverCall
  success : Bool

/-- Success test and outcome of the watchdog generation attempt
(`genRes.ok && genJson.rooms`, lines 354-373). -/
def wdOutcome (reqs : List SolverCall) (resp : FlatResp) : WdLog :=
  ⟨reqs, resp.ok && (match jget resp.body (str "rooms") with
                     | some v => jsTruthy v
                     | none => false)⟩

/-- The watchdog fallback body after its guard (lines 305-376): heuristic
extraction from the raw user text, minimal room list, direct backend call
with the graph solver, one retry with the constraint solver if it fails. -/
def watchdogFire (content : JStr) (plotWidth plotLength : Rat) (env : WdEnv) : WdLog :=
  let bhk : Nat := (bhkMatchW content).getD 2
  let area : Rat := match areaMatchW content with | some q => q | none => plotWidth * plotLength
  let width : Rat := match widthMatchW content with | some q => q | none => plotWidth
  let length : Rat := max 10 ((jsRound (area / width * 100) : Rat) / 100)
  let facing : Option JStr :=
    if testFacing (str "west") content then some (str "west")
    else if testFacing (str "east") content then some (str "east")
    else none
  let baseRooms :=
    [mkRoomJson (str "living") (Json.jstr (str "Living Room")) (str "living") 10 10,
     mkRoomJson (str "kitchen") (Json.jstr (str "Kitchen")) (str "kitchen") 8 8] ++
    wdBedrooms bhk ++ wdBathrooms (max 1 (jsRound ((bhk : Rat) / 2)).toNat)
  let payload := Json.jobj
    [(str "rooms", Json.jarr baseRooms),
     (str "plotWidth", Json.jnum width),
     (str "plotLength", Json.jnum length),
     (str "plotShape", Json.jstr (str "rectangular")),
     (str "solver_type", Json.jstr (str "graph")),
     (str "constraints", Json.jobj (match facing with
                                    | some f => [(str "house_facing", Json.jstr f)]
                                    | none => []))]
  if env.first.ok then
    wdOutcome [⟨str "graph", payload⟩] env.first
  else
    wdOutcome [⟨str "graph", payload⟩, ⟨str "constraint", setSolverType payload (str "constraint")⟩]
      env.second




/-! ### Concrete inputs used by claim witnesses and counterexamples -/

/-- An all-OK backend environment for the watchdog. -/
def wdEnvOkC7 : WdEnv := ⟨⟨true, 200, Json.jobj []⟩, ⟨true, 200, Json.jobj []⟩⟩

/-- Environment whose first streaming chat response is a 500. -/
def envC5 : GenEnv :=
  ⟨fun _ => ⟨false, 500, [], []⟩, fun _ => ⟨false, 500, Json.jnull⟩,
   fun _ => .firstOk (Json.jobj [])⟩

/-- The configuration used by the C5 counterexample. -/
def cfgC5 : GenCfg := ⟨true, false⟩

/-- Environment for the C6 inputs. -/
def envC6 : GenEnv :=
  ⟨fun _ => ⟨true, 200, [], []⟩, fun _ => ⟨true, 200, Json.jnull⟩,
   fun _ => .firstOk (Json.jobj [])⟩

/-- A tool call whose arguments arrive as the unparsable string `"{oops"`. -/
def tcBadArgs : Json :=
  Json.jobj [(str "function",
              Json.jobj [(str "name", Json.jstr (str "generate_layout_hybrid")),
                         (str "arguments", Json.jstr (str "\x7boops"))])]

/-- The accumulator used by the C6 witness. -/
def accC6 : Acc := ⟨initState [], false, some 0, [], [], 0⟩

/-- Concrete witness inputs for C1: one tool round whose dispatch succeeds,
then an empty round whose retry fails, so no text accumulates. -/
def okFieldsW1 : List (JStr × Json) :=
  [(str "status", Json.jstr (str "success")),
   (str "rooms", Json.jarr [Json.jobj []]),
   (str "score", Json.jnum 92),
   (str "solver", Json.jstr (str "constraint"))]

/-- The successful solver body of the C1 witness. -/
def okBodyW1 : Json := Json.jobj okFieldsW1

/-- The streamed record of the C1 witness: one tool call with `'{}'` string
arguments. -/
def lineW1 : JStr :=
  jsonStringify (Json.jobj [(str "message", Json.jobj [(str "tool_calls", Json.jarr
    [Json.jobj [(str "function", Json.jobj
      [(str "name", Json.jstr (str "generate_layout_hybrid")),
       (str "arguments", Json.jstr (obrace ++ cbrace))])]])])])

/-- The C1 witness environment. -/
def envW1 : GenEnv :=
  { chat := fun n => if n = 0 then ⟨true, 200, [lineW1], []⟩ else ⟨true, 200, [], []⟩,
    flat := fun _ => ⟨false, 500, Json.jnull⟩,
    solver := fun _ => .firstOk okBodyW1 }

/-- The C1 witness configuration. -/
def cfgW1 : GenCfg := ⟨true, false⟩

/-- Tool calls of the residual buffer as the residual handler sees them. -/
def residualToolCallsOllama (residual : JStr) : List Json :=
  match jsonParse residual with
  | some p => if p.isNull then [] else toolCallsOf p
  | none => []

/-- Round-entry state untouched along the dimensions C10 cares about. -/
def C10Acc (st : LoopState) (a : Acc) : Prop :=
  a.st.rolling = st.rolling ∧ a.st.haveToolResults = st.haveToolResults ∧
  a.toolLogs = [] ∧ a.solverCalls = [] ∧ a.callbacks = 0

/-- The C10 witness environment: an empty stream whose residual buffer holds
one flat-form tool call. -/
def envW10 : GenEnv :=
  { chat := fun _ => ⟨true, 200, [],
      jsonStringify (Json.jobj [(str "tool_calls",
        Json.jarr [Json.jobj [(str "name", Json.jstr (str "x"))]])])⟩,
    flat := fun _ => ⟨false, 500, Json.jnull⟩,
    solver := fun _ => .firstOk (Json.jobj []) }

/-- The C10 witness configuration. -/
def cfgW10 : GenCfg := ⟨true, false⟩


/-! ### Parser checks, stream decoder lemmas and claim C8 -/

example : jsonParse (str "  42 ") = some (Json.jnum 42) := rfl
example : jsonParse (str "\x7b\"a\":[1,true,null]\x7d")
    = some (Json.jobj [(str "a", Json.jarr [Json.jnum 1, Json.jbool true, Json.jnull])]) := rfl
example : jsonParse (str "\x7boops") = none := rfl

theorem rawSplit_append (a b : JStr) :
    rawSplit (a ++ b) = splitCombine (rawSplit a) (rawSplit b) := by
  induction a with
  | nil =>
    rcases hb : rawSplit b with ⟨rb, bb⟩
    cases rb <;> simp [rawSplit, splitCombine, hb]
  | cons c a' ih =>
    rcases ha : rawSplit a' with ⟨ra, ba⟩
    rcases hb : rawSplit b with ⟨rb, bb⟩
    rw [ha, hb] at ih
    by_cases hc : c = '\n'
    · subst hc
      cases rb <;> cases ra <;>
        simp_all [rawSplit, splitCombine]
    · cases rb <;> cases ra <;>
        simp_all [rawSplit, splitCombine]

theorem rawSplit_buffer_noNL (s : JStr) : '\n' ∉ (rawSplit s).2 := by
  induction s with
  | nil => simp [rawSplit]
  | cons c cs ih =>
    rcases h : rawSplit cs with ⟨ra, ba⟩
    rw [h] at ih
    by_cases hc : c = '\n'
    · simp [rawSplit, hc, h, ih]
    · cases ra with
      | nil =>
        simp only [rawSplit, hc, if_false, h]
        intro hmem
        rcases List.mem_cons.mp hmem with h1 | h1
        · exact hc h1.symm
        · exact ih h1
      | cons r rs' => simpa [rawSplit, hc, h] using ih

theorem rawSplit_of_noNL (s : JStr) (h : '\n' ∉ s) : rawSplit s = ([], s) := by
  induction s with
  | nil => rfl
  | cons c cs ih =>
    have hc : c ≠ '\n' := fun hq => h (hq ▸ List.mem_cons_self c cs)
    have hcs : '\n' ∉ cs := fun hm => h (List.mem_cons_of_mem _ hm)
    simp [rawSplit, hc, ih hcs]

theorem runChunks_eq_single (chunks : List JStr) :
    ∀ buf : JStr, '\n' ∉ buf →
      runChunks buf chunks =
        ((rawSplit (buf ++ chunks.flatten)).1.map stripCR,
         (rawSplit (buf ++ chunks.flatten)).2) := by
  induction chunks with
  | nil =>
    intro buf hbuf
    simp [runChunks, rawSplit_of_noNL buf hbuf]
  | cons ch chs ih =>
    intro buf hbuf
    have hb' : '\n' ∉ (rawSplit (buf ++ ch)).2 := rawSplit_buffer_noNL _
    have hrec := ih (rawSplit (buf ++ ch)).2 hb'
    have hsplit : rawSplit (buf ++ (ch :: chs).flatten)
        = splitCombine (rawSplit (buf ++ ch)) (rawSplit chs.flatten) := by
      have : buf ++ (ch :: chs).flatten = (buf ++ ch) ++ chs.flatten := by
        simp [List.flatten_cons, List.append_assoc]
      rw [this, rawSplit_append]
    have hsplit2 : rawSplit ((rawSplit (buf ++ ch)).2 ++ chs.flatten)
        = splitCombine ([], (rawSplit (buf ++ ch)).2) (rawSplit chs.flatten) := by
      rw [rawSplit_append, rawSplit_of_noNL _ hb']
    rcases h1 : rawSplit (buf ++ ch) with ⟨R, B⟩
    rcases h2 : rawSplit chs.flatten with ⟨Rf, Bf⟩
    rw [h1, h2] at hsplit hsplit2
    rw [h1] at hrec
    simp only [List.flatten_cons] at hsplit
    cases Rf with
    | nil =>
      simp [runChunks, chunkRecords, h1, hrec, hsplit, hsplit2, splitCombine]
    | cons r rs =>
      simp [runChunks, chunkRecords, h1, hrec, hsplit, hsplit2, splitCombine]

example :
    decodeAll [str "\x7b\"a\":1\x7d\nda", str "ta\ntail"]
      = [str "\x7b\"a\":1\x7d", str "data", str "tail"] := by decide

/-- The record sequence obtained from a chunking of already-decoded text
depends only on the concatenated text: the line decoder itself is invariant
under re-chunking. -/
theorem decodeAll_flatten (chunks : List JStr) :
    decodeAll chunks = decodeAll [chunks.flatten] := by
  have h1 := runChunks_eq_single chunks [] (by simp)
  have h2 := runChunks_eq_single [chunks.flatten] [] (by simp)
  simp only [List.nil_append] at h1 h2
  simp only [decodeAll, h1, h2, List.flatten]
  simp

/-- Running the byte decoder over a concatenation threads the state through
the first part. -/
theorem utf8Run_append (xs ys : List Nat) : ∀ st : Utf8St,
    utf8Run st (xs ++ ys) =
      ((utf8Run st xs).1 ++ (utf8Run (utf8Run st xs).2 ys).1,
       (utf8Run (utf8Run st xs).2 ys).2) := by
  induction xs with
  | nil => intro st; simp [utf8Run]
  | cons b bs ih =>
    intro st
    simp only [List.cons_append, utf8Run, List.append_eq, ih, List.append_assoc]

/-- From any state with no pending continuation bytes the decoder behaves as
from the initial state: same output, same pending-byte count at the end. -/
theorem utf8Run_needed0 (bs : List Nat) : ∀ st : Utf8St, st.needed = 0 →
    (utf8Run st bs).1 = (utf8Run utf8InitSt bs).1 ∧
    (utf8Run st bs).2.needed = (utf8Run utf8InitSt bs).2.needed := by
  cases bs with
  | nil =>
    intro st h
    exact ⟨rfl, by simpa [utf8Run, utf8InitSt] using h⟩
  | cons b bs =>
    intro st h
    constructor <;> simp [utf8Run, utf8Consume, h, utf8InitSt]

/-- A full-stream decode distributes over concatenation when the first part
ends at a character boundary. -/
theorem utf8DecodeFlush_append (b1 b2 : List Nat)
    (h : utf8Complete b1 = true) :
    utf8DecodeFlush (b1 ++ b2) = utf8DecodeFlush b1 ++ utf8DecodeFlush b2 := by
  have hn : (utf8Run utf8InitSt b1).2.needed = 0 := by
    simpa [utf8Complete] using h
  have heq := utf8Run_needed0 b2 (utf8Run utf8InitSt b1).2 hn
  unfold utf8DecodeFlush
  rw [utf8Run_append b1 b2 utf8InitSt]
  dsimp only
  rw [heq.1, heq.2, if_pos hn]
  by_cases h2 : (utf8Run utf8InitSt b2).2.needed = 0
  · rw [if_pos h2, if_pos h2]
  · rw [if_neg h2, if_neg h2, List.append_assoc]

/-- When every chunk ends at a character boundary, decoding the whole byte
stream equals concatenating the per-chunk decodes. -/
theorem utf8Flush_flatten (bcs : List (List Nat))
    (h : bcs.all utf8Complete = true) :
    utf8DecodeFlush bcs.flatten = (bcs.map utf8DecodeFlush).flatten := by
  induction bcs with
  | nil => rfl
  | cons b bs ih =>
    simp only [List.all_cons, Bool.and_eq_true] at h
    simp only [List.flatten_cons, List.map_cons]
    rw [utf8DecodeFlush_append b bs.flatten h.1, ih h.2]

/-- Prepending a text with a clean head preserves a clean head. -/
theorem noBOMout_append (xs ys : List Char) (hx : noBOMout xs = true)
    (hy : noBOMout ys = true) : noBOMout (xs ++ ys) = true := by
  cases xs with
  | nil => simpa using hy
  | cons c cs => simpa [noBOMout] using hx

/-- A concatenation of texts none of which starts with the byte-order mark
does not start with the byte-order mark. -/
theorem noBOMout_flatten (l : List (List Char))
    (h : ∀ x ∈ l, noBOMout x = true) : noBOMout l.flatten = true := by
  induction l with
  | nil => rfl
  | cons x xs ih =>
    simp only [List.flatten_cons]
    exact noBOMout_append x xs.flatten (h x (by simp))
      (ih fun y hy => h y (by simp [hy]))

/-- Stripping the byte-order mark is the identity on texts that do not start
with it. -/
theorem stripBOMChar_of_noBOM (cs : List Char) (h : noBOMout cs = true) :
    stripBOMChar cs = cs := by
  cases cs with
  | nil => rfl
  | cons c cs =>
    by_cases hc : c = bomChar
    · simp [noBOMout, hc] at h
    · simp [stripBOMChar, hc]

/-- On clean chunks, one big `decode()` call equals the concatenation of the
per-chunk `decode()` calls. -/
theorem utf8DecodeCall_flatten (bcs : List (List Nat))
    (h : bcs.all utf8CleanChunk = true) :
    utf8DecodeCall bcs.flatten = (bcs.map utf8DecodeCall).flatten := by
  have hclean : ∀ x ∈ bcs,
      utf8Complete x = true ∧ noBOMout (utf8DecodeFlush x) = true := by
    intro x hx
    have hx2 := List.all_eq_true.mp h x hx
    simpa [utf8CleanChunk, Bool.and_eq_true] using hx2
  have hcomp : bcs.all utf8Complete = true :=
    List.all_eq_true.mpr fun x hx => (hclean x hx).1
  have hmap : bcs.map utf8DecodeCall = bcs.map utf8DecodeFlush :=
    List.map_congr_left fun x hx => by
      unfold utf8DecodeCall
      exact stripBOMChar_of_noBOM _ (hclean x hx).2
  rw [hmap]
  unfold utf8DecodeCall
  rw [utf8Flush_flatten bcs hcomp]
  refine stripBOMChar_of_noBOM _ (noBOMout_flatten _ ?_)
  intro y hy
  obtain ⟨x, hx, rfl⟩ := List.mem_map.mp hy
  exact (hclean x hx).2

/-- C8 counterexample: `decoder.decode(value)` is called without the stream
option, so a byte split inside the two-byte UTF-8 character U+00E9 flushes to
replacement characters: the byte stream of one accented character and a
newline delivered as a single chunk decodes to one record holding that
character, but the identical bytes split between the lead and the
continuation byte decode to a record of two U+FFFD characters — the record
sequence is NOT invariant under arbitrary byte-level chunk splits. -/
theorem c8_byte_split_changes_records :
    ([[0xC3, 0xA9, 0x0A]] : List (List Nat)).flatten
        = ([[0xC3], [0xA9, 0x0A]] : List (List Nat)).flatten
      ∧ decodeAllB [[0xC3, 0xA9, 0x0A]] ≠ decodeAllB [[0xC3], [0xA9, 0x0A]] :=
  ⟨rfl, by decide⟩

/-- C8 (amended): chunk-boundary invariance holds for every re-chunking of
the byte stream that respects the UTF-8 encoding: when each chunk leaves the
decoder in its initial state (no multi-byte character is split across a chunk
boundary) and no chunk decodes to a leading byte-order mark, decoding the
chunks one `decode()` call at a time yields the same ordered record sequence
as decoding the whole stream at once — the trailing partial line is buffered
across chunk boundaries and flushed when a later chunk completes it, and the
leftover buffer at stream end is parsed as one final record. -/
theorem c8_chunk_invariance_utf8_aligned (byteChunks : List (List Nat))
    (h : byteChunks.all utf8CleanChunk = true) :
    decodeAllB byteChunks = decodeAllB [byteChunks.flatten] := by
  unfold decodeAllB
  rw [decodeAll_flatten (byteChunks.map utf8DecodeCall), List.map_cons,
    List.map_nil, utf8DecodeCall_flatten byteChunks h]

/-- Witness for the amended C8 theorem: a concrete character-aligned
two-chunk split of a small byte stream satisfies the hypothesis and the
invariance equation. -/
theorem c8_chunk_invariance_utf8_aligned_witness :
    ([[0x64, 0x61], [0x74, 0x61, 0xC3, 0xA9, 0x0A, 0x78]] :
        List (List Nat)).all utf8CleanChunk = true
      ∧ decodeAllB [[0x64, 0x61], [0x74, 0x61, 0xC3, 0xA9, 0x0A, 0x78]]
          = decodeAllB [([[0x64, 0x61], [0x74, 0x61, 0xC3, 0xA9, 0x0A, 0x78]] :
              List (List Nat)).flatten] :=
  ⟨by decide, c8_chunk_invariance_utf8_aligned _ (by decide)⟩

/-! ### Sanitizer lemmas and claims C9 -/

theorem trimStr_fallback : trimStr fallbackSentence = fallbackSentence := by decide

theorem fallback_ne_nil : fallbackSentence ≠ [] := by decide

theorem cleanFinal_ne_nil (r : JStr) : cleanFinal r ≠ [] := by
  unfold cleanFinal
  by_cases h : trimStr r = []
  · rw [if_pos h, trimStr_fallback]; exact fallback_ne_nil
  · rw [if_neg h]; exact h

theorem cleanThinkingContent_ne_nil (t : JStr) (ht : t ≠ []) :
    cleanThinkingContent t ≠ [] := by
  unfold cleanThinkingContent
  rw [if_neg ht]
  exact cleanFinal_ne_nil _

/-- C9 counterexample: on the empty input text, `cleanThinkingContent` returns
the empty (blank) string via its early guard and not the fallback sentence, so
the sanitizer's return value can be blank — the claim fails at `""`. -/
theorem c9_empty_input_blank :
    cleanThinkingContent [] = [] ∧ cleanThinkingContent [] ≠ fallbackSentence :=
  ⟨rfl, by decide⟩

/-- C9 (amended): for every NON-EMPTY input text the sanitizer never returns a
blank string, and whenever both the extracted reasoning content and the
remaining main content are empty after processing it returns the fixed
fallback sentence.  (The empty input returns the empty string.) -/
theorem c9_sanitizer_fallback_nonblank (t : JStr) (ht : t ≠ []) :
    cleanThinkingContent t ≠ [] ∧
    ((cleanParts t).1 = [] → (cleanParts t).2 = [] →
      cleanThinkingContent t = fallbackSentence) := by
  refine ⟨cleanThinkingContent_ne_nil t ht, fun h1 h2 => ?_⟩
  have hcore : cleanCore (cleanParts t) = [] := by
    unfold cleanCore; rw [h1, h2]; simp
  unfold cleanThinkingContent
  rw [if_neg ht, hcore]
  unfold cleanFinal
  show trimStr fallbackSentence = fallbackSentence
  exact trimStr_fallback

/-- Witness for C9 (amended) at the concrete input `"<think> </think>"`: both
parts empty after processing, the fallback sentence is returned and is not
blank. -/
theorem c9_sanitizer_fallback_nonblank_witness :
    cleanThinkingContent (str "<think> </think>") = fallbackSentence ∧
    cleanThinkingContent (str "<think> </think>") ≠ [] := by
  have h := c9_sanitizer_fallback_nonblank (str "<think> </think>") (by decide)
  exact ⟨h.2 (by decide) (by decide), h.1⟩

/-! ### Claim C7: watchdog fallback solver order -/

/-- C7 counterexample: when the watchdog fires on the concrete prompt
`"2 bhk"`, the first (and only) backend request selects the GRAPH solver, not
the constraint solver as the claim states. -/
theorem c7_watchdog_not_constraint_first :
    ((watchdogFire (str "2 bhk") 30 30 wdEnvOkC7).solverReqs.map SolverCall.solverType)
      = [str "graph"] ∧ str "graph" ≠ str "constraint" := by
  exact ⟨rfl, by decide⟩

/-- C7 (amended): the watchdog fallback calls the backend with the GRAPH
solver first and retries once with the CONSTRAINT solver exactly when the
first call returns a non-success response. -/
theorem c7_watchdog_graph_then_constraint (content : JStr) (pw pl : Rat) (env : WdEnv) :
    ((watchdogFire content pw pl env).solverReqs.map SolverCall.solverType)
      = if env.first.ok then [str "graph"] else [str "graph", str "constraint"] := by
  by_cases h : env.first.ok <;> simp [watchdogFire, wdOutcome, h]

/-! ### Claim C5: non-2xx on the primary streaming request -/

/-- C5 (amended): a non-2xx status on the primary streaming request is not
retried at all: `generateResponse` throws `Server responded with <status>`,
which propagates to the caller; exactly one request was issued. -/
theorem c5_non2xx_throws (cfg : GenCfg) (tools : Option (List ToolDef)) (env : GenEnv)
    (msgs : List RMsg) (h : (env.chat 0).ok = false) :
    (generateResponse cfg tools env msgs).1
      = Except.error (str "Server responded with " ++ natToStr (env.chat 0).status) ∧
    ((generateResponse cfg tools env msgs).2.2.map fun l => l.requests.length) = [1] := by
  have hdr : doRound cfg tools env (initState msgs)
      = { log := ⟨[mkStreamReq cfg tools cfg.forceDisableToolsDebug], false, some 0, [], [], 0, true⟩,
          st := initState msgs,
          thrown := some (str "Server responded with " ++ natToStr (env.chat 0).status),
          cont := false } := by
    unfold doRound initState
    simp [h]
  constructor <;> simp [generateResponse, runLoop, maxRounds, hdr]

/-- C5 counterexample: with a 500 on the primary streaming request,
`generateResponse` propagates an error to the caller (and issues no retry) —
refuting the claim that it does not. -/
theorem c5_non2xx_propagates_error :
    (generateResponse cfgC5 none envC5 []).1
      = Except.error (str "Server responded with 500") ∧
    ((generateResponse cfgC5 none envC5 []).2.2.map fun l => l.requests.length) = [1] := by
  exact ⟨rfl, rfl⟩

/-- Witness for C5 (amended), applied at the concrete 500-environment. -/
theorem c5_non2xx_throws_witness :
    (generateResponse cfgC5 none envC5 []).1
      = Except.error (str "Server responded with " ++ natToStr ((envC5).chat 0).status) :=
  (c5_non2xx_throws cfgC5 none envC5 [] rfl).1

/-! ### Claim C6: malformed tool-call argument strings -/

/-- C6 counterexample: a detected tool call whose arguments are an unparsable
JSON string is NOT dispatched with an empty argument structure — processing
takes the catch path: no solver call, no tool message, no callback, only the
`ToolArgsParseError` log.  This refutes "the tool is still attempted". -/
theorem c6_unparsable_string_not_dispatched :
    processToolCall envC6 0 tcBadArgs = skipTC ∧
    (processToolCall envC6 0 tcBadArgs).solverCalls = [] ∧
    (processToolCall envC6 0 tcBadArgs).toolMsg = none ∧
    (processToolCall envC6 0 tcBadArgs).callback = false ∧
    (processToolCall envC6 0 tcBadArgs).log = TCLog.argsParseError := by
  refine ⟨?_, ?_, ?_, ?_, ?_⟩ <;> rfl

/-- C6 (amended): a tool call whose arguments arrive as a string that is not
parseable JSON is skipped, not dispatched: the failure is logged (the
`argsParseError` entry), no backend call, no callback and no tool message are
produced, and the surrounding loop state is otherwise unchanged — the
malformed encoding never aborts the conversation loop.  (Only non-string,
non-object argument values are treated as empty arguments.) -/
theorem c6_unparsable_args_logged_skipped (env : GenEnv) (tc : Json) (s : JStr)
    (hs : nullishChain [jgetOpt (jget tc (str "function")) (str "arguments"),
                        jget tc (str "arguments")] = some (Json.jstr s))
    (hp : jsonParse s = none) :
    (∀ idx, processToolCall env idx tc = skipTC) ∧
    (∀ a : Acc, applyToolCall env a tc
      = { a with toolLogs := a.toolLogs ++ [TCLog.argsParseError] }) := by
  have hnull : tc.isNull = false := by
    cases tc <;> first
      | rfl
      | (exfalso; simp [jget, jgetOpt, nullishChain] at hs)
  have hraw : rawArgsOf tc = Json.jstr s := by unfold rawArgsOf; rw [hs]
  have hmain : ∀ idx, processToolCall env idx tc = skipTC := by
    intro idx
    unfold processToolCall
    rw [hnull, hraw]
    simp [argsOf, hp]
  refine ⟨hmain, fun a => ?_⟩
  simp [applyToolCall, hmain, skipTC]

/-- Witness for C6 (amended) at the concrete unparsable-argument tool call. -/
theorem c6_unparsable_args_logged_skipped_witness :
    processToolCall envC6 0 tcBadArgs = skipTC ∧
    applyToolCall envC6 accC6 tcBadArgs = { accC6 with toolLogs := [TCLog.argsParseError] } := by
  have h := c6_unparsable_args_logged_skipped envC6 tcBadArgs (str "\x7boops") rfl rfl
  exact ⟨h.1 0, by rw [h.2 accC6]; rfl⟩



/-! ### Fold preservation helpers -/

theorem foldl_pres_all {α β : Type} (f : α → β → α) (P : α → Prop)
    (hf : ∀ a b, P a → P (f a b)) : ∀ (l : List β) (a : α), P a → P (l.foldl f a) := by
  intro l
  induction l with
  | nil => intro a ha; exact ha
  | cons x xs ih => intro a ha; exact ih _ (hf a x ha)

theorem foldl_pres_mem {α β : Type} (f : α → β → α) (P : α → Prop) :
    ∀ (l : List β), (∀ a b, b ∈ l → P a → P (f a b)) → ∀ (a : α), P a → P (l.foldl f a) := by
  intro l
  induction l with
  | nil => intro _ a ha; exact ha
  | cons x xs ih =>
    intro hf a ha
    exact ih (fun a' b hb => hf a' b (List.mem_cons_of_mem _ hb)) _
      (hf a x (List.mem_cons_self _ _) ha)

/-! ### processToolCall facts -/

theorem processToolCall_cases (env : GenEnv) (idx : Nat) (tc : Json) :
    processToolCall env idx tc = skipTC ∨
    ∃ args nameV, processToolCall env idx tc = dispatchTC env idx args nameV := by
  unfold processToolCall
  repeat' split
  all_goals first
    | exact Or.inl rfl
    | exact Or.inr ⟨_, _, rfl⟩

theorem dispatchTC_log_msg (env : GenEnv) (idx : Nat) (args : Json) (nameV : Option Json) :
    isDispatchLog (dispatchTC env idx args nameV).log = true ∧
    (dispatchTC env idx args nameV).toolMsg.isSome = true := by
  unfold dispatchTC
  split <;> exact ⟨rfl, rfl⟩

theorem processToolCall_dispatch_iff_msg (env : GenEnv) (idx : Nat) (tc : Json) :
    isDispatchLog (processToolCall env idx tc).log
      = (processToolCall env idx tc).toolMsg.isSome := by
  rcases processToolCall_cases env idx tc with h | ⟨args, nameV, h⟩
  · rw [h]; rfl
  · rw [h]
    have h2 := dispatchTC_log_msg env idx args nameV
    rw [h2.1, h2.2]

theorem executeGenerate_obj (env : GenEnv) (henv : EnvSolverObjs env) (idx : Nat)
    (payload : Json) : ∃ fs, (executeGenerate env idx payload).1 = Json.jobj fs := by
  have h := henv idx
  cases hs : env.solver idx with
  | firstOk b =>
    rw [hs] at h
    obtain ⟨fs, hfs⟩ := h
    exact ⟨fs, by simp [executeGenerate, hs, hfs]⟩
  | retriedTo b =>
    rw [hs] at h
    obtain ⟨fs, hfs⟩ := h
    exact ⟨fs, by simp [executeGenerate, hs, hfs]⟩
  | threw m =>
    refine ⟨[(str "status", Json.jstr (str "error")),
             (str "message", Json.jstr (if m = [] then str "Backend generation failed" else m))],
            ?_⟩
    simp [executeGenerate, hs, backendErrResult]

theorem dispatchTC_result_obj (env : GenEnv) (henv : EnvSolverObjs env) (idx : Nat)
    (args : Json) (nameV : Option Json) (res : Json)
    (h : (dispatchTC env idx args nameV).log = .dispatched res) :
    ∃ fs, res = Json.jobj fs := by
  unfold dispatchTC at h
  by_cases hg : isGenName nameV = true
  · rw [if_pos hg] at h
    have h' : TCLog.dispatched (executeGenerate env idx (toolPayload args)).1
        = TCLog.dispatched res := h
    obtain ⟨fs, hfs⟩ := executeGenerate_obj env henv idx (toolPayload args)
    injection h' with h2
    exact ⟨fs, h2 ▸ hfs⟩
  · rw [if_neg hg] at h
    have h' : TCLog.dispatched noHandlerResult = TCLog.dispatched res := h
    injection h' with h2
    refine ⟨[(str "status", Json.jstr (str "error")),
             (str "message", Json.jstr (str "No handler"))], ?_⟩
    rw [← h2]
    rfl

theorem processToolCall_dispatched_obj (env : GenEnv) (henv : EnvSolverObjs env)
    (idx : Nat) (tc : Json) (res : Json)
    (h : (processToolCall env idx tc).log = .dispatched res) :
    ∃ fs, res = Json.jobj fs := by
  rcases processToolCall_cases env idx tc with hc | ⟨args, nameV, hc⟩
  · rw [hc] at h; exact absurd h (by simp [skipTC])
  · rw [hc] at h; exact dispatchTC_result_obj env henv idx args nameV res h


/-! ### Accumulator preservation -/

theorem applyToolCall_base (env : GenEnv) (st0 : LoopState) (a : Acc) (tc : Json)
    (h : AccBase st0 a) : AccBase st0 (applyToolCall env a tc) := by
  obtain ⟨h1, h2, h3⟩ := h
  refine ⟨h1, ?_, ?_⟩
  · intro hh
    have hha : a.st.haveToolResults = true := h2 hh
    show (a.st.haveToolResults || (processToolCall env a.st.dispatchCount tc).toolMsg.isSome)
        = true
    rw [hha, Bool.true_or]
  · intro hd
    have hd' : (a.toolLogs ++ [(processToolCall env a.st.dispatchCount tc).log]).any
        isDispatchLog = true := hd
    rw [List.any_append] at hd'
    show (a.st.haveToolResults || (processToolCall env a.st.dispatchCount tc).toolMsg.isSome)
        = true
    rcases Bool.or_eq_true_iff.mp hd' with hx | hx
    · rw [h3 hx, Bool.true_or]
    · simp only [List.any_cons, List.any_nil, Bool.or_false] at hx
      rw [processToolCall_dispatch_iff_msg] at hx
      rw [hx, Bool.or_true]

theorem applyToolCall_last (env : GenEnv) (a : Acc) (tc : Json)
    (henv : EnvSolverObjs env) (h : LastGood a.st) : LastGood (applyToolCall env a tc).st := by
  obtain ⟨h1, h2⟩ := h
  have hlast : (applyToolCall env a tc).st.lastToolResult
      = (match (processToolCall env a.st.dispatchCount tc).log with
         | .dispatched res => some res
         | .argsParseError => a.st.lastToolResult) := rfl
  have hhave : (applyToolCall env a tc).st.haveToolResults
      = (a.st.haveToolResults || (processToolCall env a.st.dispatchCount tc).toolMsg.isSome) :=
    rfl
  cases hl : (processToolCall env a.st.dispatchCount tc).log with
  | argsParseError =>
    have hmsg : (processToolCall env a.st.dispatchCount tc).toolMsg.isSome = false := by
      rw [← processToolCall_dispatch_iff_msg, hl]; rfl
    constructor
    · intro hh
      rw [hhave, hmsg, Bool.or_false] at hh
      rw [hlast, hl]
      exact h1 hh
    · intro j hj
      rw [hlast, hl] at hj
      exact h2 j hj
  | dispatched res =>
    constructor
    · intro _
      rw [hlast, hl]
      rfl
    · intro j hj
      rw [hlast, hl] at hj
      obtain ⟨fs, hfs⟩ := processToolCall_dispatched_obj env henv a.st.dispatchCount tc res hl
      have hj' : res = j := Option.some.inj hj
      exact ⟨fs, hj' ▸ hfs⟩

theorem linesFold_pres (cfg : GenCfg) (env : GenEnv) (P : Acc → Prop)
    (hTool : ∀ a tc, P a → P (applyToolCall env a tc))
    (hContent : ∀ a v, P a → P (accAddContent a v))
    (hEnc : ∀ a : Acc, P a → P { a with encountered := true }) :
    ∀ (lines : List JStr) (a : Acc), P a → P (lines.foldl (roundStep cfg env) a) := by
  have hOllama : ∀ a line, P a → P (applyOllamaLine env a line) := by
    intro a line ha
    unfold applyOllamaLine
    split
    · exact ha
    · split
      · exact ha
      · unfold applyOllamaToolCalls
        split
        · split
          · exact hContent _ _ ha
          · exact ha
        · apply foldl_pres_all _ P (fun a' tc ha' => hTool a' tc ha')
          apply hEnc
          split
          · exact hContent _ _ ha
          · exact ha
  have hOpenAI : ∀ a line, P a → P (applyOpenAILine a line) := by
    intro a line ha
    unfold applyOpenAILine
    repeat' split
    all_goals first
      | exact ha
      | exact hContent _ _ ha
  apply foldl_pres_all
  intro a l ha
  unfold roundStep
  split
  · exact hOllama a l ha
  · exact hOpenAI a l ha

theorem applyResidual_pres (cfg : GenCfg) (P : Acc → Prop)
    (hContent : ∀ a v, P a → P (accAddContent a v))
    (hEnc : ∀ a : Acc, P a → P { a with encountered := true }) :
    ∀ (a : Acc) (r : JStr), P a → P (applyResidual cfg a r) := by
  intro a r ha
  have hMark : ∀ (a' : Acc) parsed, P a' → P (residualMarkToolCalls a' parsed) := by
    intro a' parsed ha'
    unfold residualMarkToolCalls
    split
    · exact ha'
    · exact hEnc a' ha'
  unfold applyResidual applyResidualOllama applyResidualOpenAI
  repeat' split
  all_goals first
    | exact ha
    | exact hContent _ _ ha
    | exact hMark _ _ ha
    | exact hMark _ _ (hContent _ _ ha)

theorem roundAcc_pres (cfg : GenCfg) (env : GenEnv) (st : LoopState) (P : Acc → Prop)
    (hTool : ∀ a tc, P a → P (applyToolCall env a tc))
    (hContent : ∀ a v, P a → P (accAddContent a v))
    (hEnc : ∀ a : Acc, P a → P { a with encountered := true })
    (hinit : P (initAcc st)) : P (roundAcc cfg env st) := by
  unfold roundAcc
  exact applyResidual_pres cfg P hContent hEnc _ _
    (linesFold_pres cfg env P hTool hContent hEnc _ _ hinit)

theorem roundAcc_base (cfg : GenCfg) (env : GenEnv) (st : LoopState) :
    AccBase st (roundAcc cfg env st) := by
  apply roundAcc_pres cfg env st (AccBase st)
  · exact fun a tc h => applyToolCall_base env st a tc h
  · exact fun a v h => h
  · exact fun a h => h
  · refine ⟨rfl, fun h => h, fun hd => ?_⟩
    simp [initAcc] at hd

theorem roundAcc_last (cfg : GenCfg) (env : GenEnv) (st : LoopState)
    (henv : EnvSolverObjs env) (h : LastGood st) : LastGood (roundAcc cfg env st).st := by
  apply roundAcc_pres cfg env st (fun a => LastGood a.st)
  · exact fun a tc ha => applyToolCall_last env a tc henv ha
  · exact fun a v ha => ha
  · exact fun a ha => ha
  · exact h


/-! ### finishRound and doRound facts -/

theorem flatRetryState_fields (cfg : GenCfg) (env : GenEnv) (n : Nat) (s : LoopState) :
    (flatRetryState cfg env n s).haveToolResults = s.haveToolResults ∧
    (flatRetryState cfg env n s).rounds = s.rounds ∧
    (flatRetryState cfg env n s).lastToolResult = s.lastToolResult ∧
    (flatRetryState cfg env n s).rolling = s.rolling := by
  unfold flatRetryState
  split <;> exact ⟨rfl, rfl, rfl, rfl⟩

theorem finishRound_basics (cfg : GenCfg) (tools : Option (List ToolDef)) (env : GenEnv)
    (st : LoopState) (disable : Bool) (req : ReqInfo) (a2 : Acc) :
    (finishRound cfg tools env st disable req a2).log.encountered = a2.encountered ∧
    (finishRound cfg tools env st disable req a2).cont = a2.encountered ∧
    (finishRound cfg tools env st disable req a2).thrown = none ∧
    (finishRound cfg tools env st disable req a2).log.toolLogs = a2.toolLogs ∧
    (finishRound cfg tools env st disable req a2).log.solverCalls = a2.solverCalls ∧
    (finishRound cfg tools env st disable req a2).log.callbacks = a2.callbacks ∧
    (finishRound cfg tools env st disable req a2).log.streamedChars = a2.chars ∧
    (finishRound cfg tools env st disable req a2).log.threw = false := by
  unfold finishRound
  by_cases he : a2.encountered = true
  · simp [he]
  · simp only [Bool.not_eq_true] at he
    rw [he]
    simp only [Bool.false_eq_true, if_false]
    by_cases hc : a2.chars = some 0
    · rw [if_pos hc]
      exact ⟨rfl, rfl, rfl, rfl, rfl, rfl, rfl, rfl⟩
    · rw [if_neg hc]
      exact ⟨rfl, rfl, rfl, rfl, rfl, rfl, rfl, rfl⟩

theorem finishRound_have (cfg : GenCfg) (tools : Option (List ToolDef)) (env : GenEnv)
    (st : LoopState) (disable : Bool) (req : ReqInfo) (a2 : Acc) :
    (finishRound cfg tools env st disable req a2).st.haveToolResults
      = a2.st.haveToolResults := by
  unfold finishRound
  by_cases he : a2.encountered = true
  · simp [he]
  · simp only [Bool.not_eq_true] at he
    rw [he]
    simp only [Bool.false_eq_true, if_false]
    by_cases hc : a2.chars = some 0
    · rw [if_pos hc]
      exact (flatRetryState_fields cfg env st.rounds a2.st).1
    · rw [if_neg hc]

theorem finishRound_rounds (cfg : GenCfg) (tools : Option (List ToolDef)) (env : GenEnv)
    (st : LoopState) (disable : Bool) (req : ReqInfo) (a2 : Acc) :
    (finishRound cfg tools env st disable req a2).st.rounds
      = a2.st.rounds + (if a2.encountered then 1 else 0) := by
  unfold finishRound
  by_cases he : a2.encountered = true
  · simp [he]
  · simp only [Bool.not_eq_true] at he
    rw [he]
    simp only [Bool.false_eq_true, if_false]
    by_cases hc : a2.chars = some 0
    · rw [if_pos hc]
      rw [(flatRetryState_fields cfg env st.rounds a2.st).2.1]
      omega
    · rw [if_neg hc]
      show a2.st.rounds = a2.st.rounds + 0
      omega

theorem finishRound_last (cfg : GenCfg) (tools : Option (List ToolDef)) (env : GenEnv)
    (st : LoopState) (disable : Bool) (req : ReqInfo) (a2 : Acc)
    (h : LastGood a2.st) : LastGood (finishRound cfg tools env st disable req a2).st := by
  unfold finishRound
  by_cases he : a2.encountered = true
  · simp only [he, if_pos]
    exact h
  · simp only [Bool.not_eq_true] at he
    rw [he]
    simp only [Bool.false_eq_true, if_false]
    by_cases hc : a2.chars = some 0
    · rw [if_pos hc]
      have hf := flatRetryState_fields cfg env st.rounds a2.st
      exact ⟨fun hh => hf.2.2.1 ▸ (h.1 (hf.1 ▸ hh)),
             fun j hj => h.2 j (hf.2.2.1 ▸ hj)⟩
    · rw [if_neg hc]
      exact h

theorem finishRound_requests (cfg : GenCfg) (tools : Option (List ToolDef)) (env : GenEnv)
    (st : LoopState) (disable : Bool) (req : ReqInfo) (a2 : Acc) :
    (finishRound cfg tools env st disable req a2).log.requests
      = if a2.encountered = false ∧ a2.chars = some 0 then [req, mkFlatReq cfg tools disable]
        else [req] := by
  unfold finishRound
  by_cases he : a2.encountered = true
  · simp [he]
  · simp only [Bool.not_eq_true] at he
    rw [he]
    simp only [Bool.false_eq_true, if_false]
    by_cases hc : a2.chars = some 0
    · rw [if_pos hc]
      simp [hc]
    · rw [if_neg hc]
      simp [hc]

theorem mkStreamReq_stream (cfg : GenCfg) (tools : Option (List ToolDef)) (d : Bool) :
    (mkStreamReq cfg tools d).streamMode = true := by
  unfold mkStreamReq; split <;> rfl

theorem mkFlatReq_stream (cfg : GenCfg) (tools : Option (List ToolDef)) (d : Bool) :
    (mkFlatReq cfg tools d).streamMode = false := by
  unfold mkFlatReq; split <;> rfl

theorem mkReq_disabled (cfg : GenCfg) (tools : Option (List ToolDef))
    (hol : cfg.isOllama = true) :
    reqDisabled (mkStreamReq cfg tools true) = true ∧
    reqDisabled (mkFlatReq cfg tools true) = true := by
  unfold mkStreamReq mkFlatReq reqDisabled
  rw [if_pos hol, if_pos hol]
  cases tools <;> simp

theorem doRound_enc_eq_cont (cfg : GenCfg) (tools : Option (List ToolDef)) (env : GenEnv)
    (st : LoopState) :
    (doRound cfg tools env st).log.encountered = (doRound cfg tools env st).cont := by
  unfold doRound
  split
  · rfl
  · have h := finishRound_basics cfg tools env st
      (st.haveToolResults || cfg.forceDisableToolsDebug)
      (mkStreamReq cfg tools (st.haveToolResults || cfg.forceDisableToolsDebug))
      (roundAcc cfg env st)
    rw [h.1, h.2.1]

theorem doRound_thrown_cases (cfg : GenCfg) (tools : Option (List ToolDef)) (env : GenEnv)
    (st : LoopState) :
    ((env.chat st.rounds).ok = false ∧
      doRound cfg tools env st =
        { log := ⟨[mkStreamReq cfg tools (st.haveToolResults || cfg.forceDisableToolsDebug)],
                  false, some 0, [], [], 0, true⟩,
          st := st,
          thrown := some (str "Server responded with " ++ natToStr (env.chat st.rounds).status),
          cont := false }) ∨
    ((env.chat st.rounds).ok = true ∧
      doRound cfg tools env st =
        finishRound cfg tools env st (st.haveToolResults || cfg.forceDisableToolsDebug)
          (mkStreamReq cfg tools (st.haveToolResults || cfg.forceDisableToolsDebug))
          (roundAcc cfg env st)) := by
  unfold doRound
  by_cases h : (env.chat st.rounds).ok = false
  · left
    exact ⟨h, by rw [if_pos h]⟩
  · right
    refine ⟨?_, by rw [if_neg h]⟩
    revert h
    cases (env.chat st.rounds).ok <;> simp

theorem doRound_mono (cfg : GenCfg) (tools : Option (List ToolDef)) (env : GenEnv)
    (st : LoopState) (h : st.haveToolResults = true) :
    (doRound cfg tools env st).st.haveToolResults = true := by
  rcases doRound_thrown_cases cfg tools env st with ⟨_, hd⟩ | ⟨_, hd⟩
  · rw [hd]; exact h
  · rw [hd, finishRound_have]
    exact (roundAcc_base cfg env st).2.1 h

theorem doRound_Q (cfg : GenCfg) (tools : Option (List ToolDef)) (env : GenEnv)
    (st : LoopState)
    (h : (doRound cfg tools env st).log.toolLogs.any isDispatchLog = true) :
    (doRound cfg tools env st).st.haveToolResults = true := by
  rcases doRound_thrown_cases cfg tools env st with ⟨_, hd⟩ | ⟨_, hd⟩
  · rw [hd] at h; simp at h
  · rw [hd] at h ⊢
    have hb := finishRound_basics cfg tools env st
      (st.haveToolResults || cfg.forceDisableToolsDebug)
      (mkStreamReq cfg tools (st.haveToolResults || cfg.forceDisableToolsDebug))
      (roundAcc cfg env st)
    rw [hb.2.2.2.1] at h
    rw [finishRound_have]
    exact (roundAcc_base cfg env st).2.2 h

theorem doRound_rounds (cfg : GenCfg) (tools : Option (List ToolDef)) (env : GenEnv)
    (st : LoopState) :
    (doRound cfg tools env st).st.rounds
      = st.rounds + (if (doRound cfg tools env st).log.encountered then 1 else 0) := by
  rcases doRound_thrown_cases cfg tools env st with ⟨_, hd⟩ | ⟨_, hd⟩
  · rw [hd]; rfl
  · rw [hd, finishRound_rounds]
    have hb := finishRound_basics cfg tools env st
      (st.haveToolResults || cfg.forceDisableToolsDebug)
      (mkStreamReq cfg tools (st.haveToolResults || cfg.forceDisableToolsDebug))
      (roundAcc cfg env st)
    rw [hb.1, (roundAcc_base cfg env st).1]

theorem doRound_last (cfg : GenCfg) (tools : Option (List ToolDef)) (env : GenEnv)
    (st : LoopState) (henv : EnvSolverObjs env) (h : LastGood st) :
    LastGood (doRound cfg tools env st).st := by
  rcases doRound_thrown_cases cfg tools env st with ⟨_, hd⟩ | ⟨_, hd⟩
  · rw [hd]; exact h
  · rw [hd]
    exact finishRound_last _ _ _ _ _ _ _ (roundAcc_last cfg env st henv h)

theorem doRound_disabled (cfg : GenCfg) (tools : Option (List ToolDef)) (env : GenEnv)
    (st : LoopState) (hol : cfg.isOllama = true) (h : st.haveToolResults = true) :
    ((doRound cfg tools env st).log.requests.all reqDisabled) = true := by
  have hdis : (st.haveToolResults || cfg.forceDisableToolsDebug) = true := by
    rw [h, Bool.true_or]
  have hds := mkReq_disabled cfg tools hol
  rcases doRound_thrown_cases cfg tools env st with ⟨_, hd⟩ | ⟨_, hd⟩
  · rw [hd]
    simp only [List.all_cons, List.all_nil, Bool.and_true]
    rw [hdis]
    exact hds.1
  · rw [hd]
    rw [finishRound_requests, hdis]
    split
    · simp only [List.all_cons, List.all_nil, Bool.and_true]
      rw [hds.1, hds.2, Bool.and_self]
    · simp only [List.all_cons, List.all_nil, Bool.and_true]
      exact hds.1

theorem doRound_retryShape (cfg : GenCfg) (tools : Option (List ToolDef)) (env : GenEnv)
    (st : LoopState) : retryShape (doRound cfg tools env st).log = true := by
  rcases doRound_thrown_cases cfg tools env st with ⟨_, hd⟩ | ⟨_, hd⟩
  · rw [hd]
    unfold retryShape
    simp [mkStreamReq_stream]
  · rw [hd]
    have hb := finishRound_basics cfg tools env st
      (st.haveToolResults || cfg.forceDisableToolsDebug)
      (mkStreamReq cfg tools (st.haveToolResults || cfg.forceDisableToolsDebug))
      (roundAcc cfg env st)
    unfold retryShape
    rw [finishRound_requests, hb.1, hb.2.2.2.2.2.2.1, hb.2.2.2.2.2.2.2]
    by_cases hcase : (roundAcc cfg env st).encountered = false
        ∧ (roundAcc cfg env st).chars = some 0
    · rw [if_pos hcase]
      simp [mkStreamReq_stream, mkFlatReq_stream, hcase.1, hcase.2]
    · rw [if_neg hcase]
      simp only [mkStreamReq_stream, Bool.true_and]
      rw [Classical.not_and_iff_or_not_not] at hcase
      rcases hcase with hx | hx
      · simp only [Bool.not_eq_false] at hx
        simp [hx]
      · simp [hx]


/-! ### runLoop facts -/

theorem roundAcc_toolLogs_nonOllama (cfg : GenCfg) (env : GenEnv) (st : LoopState)
    (hol : cfg.isOllama = false) : (roundAcc cfg env st).toolLogs = [] := by
  unfold roundAcc
  have hstep : ∀ (a : Acc) (l : JStr), a.toolLogs = [] →
      (roundStep cfg env a l).toolLogs = [] := by
    intro a l ha
    unfold roundStep
    rw [hol]
    simp only [Bool.false_eq_true, if_false]
    unfold applyOpenAILine
    repeat' split
    all_goals exact ha
  have hlines : ((env.chat st.rounds).lines.foldl (roundStep cfg env) (initAcc st)).toolLogs
      = [] :=
    foldl_pres_all (roundStep cfg env) (fun a : Acc => a.toolLogs = []) hstep
      (env.chat st.rounds).lines (initAcc st) rfl
  exact applyResidual_pres cfg (fun a => a.toolLogs = [])
    (fun a v ha => ha) (fun a ha => ha) _ _ hlines

theorem doRound_toolLogs_nonOllama (cfg : GenCfg) (tools : Option (List ToolDef))
    (env : GenEnv) (st : LoopState) (hol : cfg.isOllama = false) :
    (doRound cfg tools env st).log.toolLogs = [] := by
  rcases doRound_thrown_cases cfg tools env st with ⟨_, hd⟩ | ⟨_, hd⟩
  · rw [hd]
  · rw [hd]
    have hb := finishRound_basics cfg tools env st
      (st.haveToolResults || cfg.forceDisableToolsDebug)
      (mkStreamReq cfg tools (st.haveToolResults || cfg.forceDisableToolsDebug))
      (roundAcc cfg env st)
    rw [hb.2.2.2.1]
    exact roundAcc_toolLogs_nonOllama cfg env st hol



theorem runLoop_length (cfg : GenCfg) (tools : Option (List ToolDef)) (env : GenEnv) :
    ∀ (fuel : Nat) (st : LoopState),
      (runLoop cfg tools env fuel st).logs.length ≤ fuel := by
  intro fuel
  induction fuel with
  | zero => intro st; simp [runLoop]
  | succ n ih =>
    intro st
    simp only [runLoop]
    cases h : (doRound cfg tools env st).thrown with
    | some e => simp
    | none =>
      by_cases hc : (doRound cfg tools env st).cont = true
      · simp only [hc, if_pos]
        simp only [List.length_cons]
        exact Nat.succ_le_succ (ih _)
      · simp only [Bool.not_eq_true] at hc
        simp [hc]

theorem runLoop_dropLast_enc (cfg : GenCfg) (tools : Option (List ToolDef)) (env : GenEnv) :
    ∀ (fuel : Nat) (st : LoopState),
      ((runLoop cfg tools env fuel st).logs.dropLast.all fun l => l.encountered) = true := by
  intro fuel
  induction fuel with
  | zero => intro st; simp [runLoop]
  | succ n ih =>
    intro st
    simp only [runLoop]
    cases h : (doRound cfg tools env st).thrown with
    | some e => simp
    | none =>
      by_cases hc : (doRound cfg tools env st).cont = true
      · simp only [hc, if_pos]
        cases hrest : (runLoop cfg tools env n (doRound cfg tools env st).st).logs with
        | nil => simp
        | cons x xs =>
          have henc : (doRound cfg tools env st).log.encountered = true := by
            rw [doRound_enc_eq_cont, hc]
          have := ih (doRound cfg tools env st).st
          rw [hrest] at this
          simp only [List.dropLast_cons₂, List.all_cons, henc, Bool.true_and]
          exact this
      · simp only [Bool.not_eq_true] at hc
        simp [hc]

theorem runLoop_rounds (cfg : GenCfg) (tools : Option (List ToolDef)) (env : GenEnv) :
    ∀ (fuel : Nat) (st : LoopState),
      (runLoop cfg tools env fuel st).st.rounds
        = st.rounds + ((runLoop cfg tools env fuel st).logs.filter
            fun l => l.encountered).length := by
  intro fuel
  induction fuel with
  | zero => intro st; simp [runLoop]
  | succ n ih =>
    intro st
    simp only [runLoop]
    cases h : (doRound cfg tools env st).thrown with
    | some e =>
      rcases doRound_thrown_cases cfg tools env st with ⟨_, hd⟩ | ⟨_, hd⟩
      · simp only []
        rw [hd]
        simp
      · rw [hd] at h
        have hb := finishRound_basics cfg tools env st
          (st.haveToolResults || cfg.forceDisableToolsDebug)
          (mkStreamReq cfg tools (st.haveToolResults || cfg.forceDisableToolsDebug))
          (roundAcc cfg env st)
        rw [hb.2.2.1] at h
        exact absurd h (by simp)
    | none =>
      have hr := doRound_rounds cfg tools env st
      by_cases hc : (doRound cfg tools env st).cont = true
      · have henc : (doRound cfg tools env st).log.encountered = true := by
          rw [doRound_enc_eq_cont, hc]
        simp only [hc, if_pos]
        rw [ih (doRound cfg tools env st).st, hr, henc]
        simp [List.filter_cons, henc]
        omega
      · simp only [Bool.not_eq_true] at hc
        have henc : (doRound cfg tools env st).log.encountered = false := by
          rw [doRound_enc_eq_cont, hc]
        simp only [hc]
        simp only [Bool.false_eq_true, if_false]
        rw [hr, henc]
        simp [List.filter_cons, henc]

theorem runLoop_mono (cfg : GenCfg) (tools : Option (List ToolDef)) (env : GenEnv) :
    ∀ (fuel : Nat) (st : LoopState), st.haveToolResults = true →
      (runLoop cfg tools env fuel st).st.haveToolResults = true := by
  intro fuel
  induction fuel with
  | zero => intro st h; simpa [runLoop] using h
  | succ n ih =>
    intro st h
    simp only [runLoop]
    cases hth : (doRound cfg tools env st).thrown with
    | some e => simpa using doRound_mono cfg tools env st h
    | none =>
      by_cases hc : (doRound cfg tools env st).cont = true
      · simp only [hc, if_pos]
        exact ih _ (doRound_mono cfg tools env st h)
      · simp only [Bool.not_eq_true] at hc
        simpa [hc] using doRound_mono cfg tools env st h

theorem runLoop_dispatch_have (cfg : GenCfg) (tools : Option (List ToolDef)) (env : GenEnv) :
    ∀ (fuel : Nat) (st : LoopState),
      ((runLoop cfg tools env fuel st).logs.any
          fun rl => rl.toolLogs.any isDispatchLog) = true →
      (runLoop cfg tools env fuel st).st.haveToolResults = true := by
  intro fuel
  induction fuel with
  | zero => intro st h; simp [runLoop] at h
  | succ n ih =>
    intro st h
    simp only [runLoop] at h ⊢
    cases hth : (doRound cfg tools env st).thrown with
    | some e =>
      rw [hth] at h
      simp only [List.any_cons, List.any_nil, Bool.or_false] at h
      simpa using doRound_Q cfg tools env st h
    | none =>
      rw [hth] at h
      by_cases hc : (doRound cfg tools env st).cont = true
      · rw [if_pos hc] at h
        simp only [hc, if_pos]
        simp only [List.any_cons, Bool.or_eq_true_iff] at h
        rcases h with hx | hx
        · exact runLoop_mono cfg tools env n _ (doRound_Q cfg tools env st hx)
        · exact ih _ hx
      · simp only [Bool.not_eq_true] at hc
        rw [hc] at h
        simp only [Bool.false_eq_true, if_false] at h
        simp only [List.any_cons, List.any_nil, Bool.or_false] at h
        simpa [hc] using doRound_Q cfg tools env st h

theorem runLoop_last (cfg : GenCfg) (tools : Option (List ToolDef)) (env : GenEnv)
    (henv : EnvSolverObjs env) :
    ∀ (fuel : Nat) (st : LoopState), LastGood st →
      LastGood (runLoop cfg tools env fuel st).st := by
  intro fuel
  induction fuel with
  | zero => intro st h; simpa [runLoop] using h
  | succ n ih =>
    intro st h
    simp only [runLoop]
    cases hth : (doRound cfg tools env st).thrown with
    | some e => simpa using doRound_last cfg tools env st henv h
    | none =>
      by_cases hc : (doRound cfg tools env st).cont = true
      · simp only [hc, if_pos]
        exact ih _ (doRound_last cfg tools env st henv h)
      · simp only [Bool.not_eq_true] at hc
        simpa [hc] using doRound_last cfg tools env st henv h

theorem runLoop_all_inv (cfg : GenCfg) (tools : Option (List ToolDef)) (env : GenEnv)
    (P : RoundLog → Bool) (I : LoopState → Prop)
    (hI : ∀ st, I st → I (doRound cfg tools env st).st)
    (hP : ∀ st, I st → P (doRound cfg tools env st).log = true) :
    ∀ (fuel : Nat) (st : LoopState), I st →
      ((runLoop cfg tools env fuel st).logs.all P) = true := by
  intro fuel
  induction fuel with
  | zero => intro st _; simp [runLoop]
  | succ n ih =>
    intro st h
    simp only [runLoop]
    cases hth : (doRound cfg tools env st).thrown with
    | some e => simpa using hP st h
    | none =>
      by_cases hc : (doRound cfg tools env st).cont = true
      · simp only [hc, if_pos, List.all_cons]
        rw [hP st h, ih _ (hI st h), Bool.and_self]
      · simp only [Bool.not_eq_true] at hc
        simpa [hc] using hP st h

theorem runLoop_suppressed (cfg : GenCfg) (tools : Option (List ToolDef)) (env : GenEnv) :
    ∀ (fuel : Nat) (st : LoopState),
      suppressedAfterDispatch (runLoop cfg tools env fuel st).logs = true := by
  intro fuel
  induction fuel with
  | zero => intro st; simp [runLoop, suppressedAfterDispatch]
  | succ n ih =>
    intro st
    simp only [runLoop]
    cases hth : (doRound cfg tools env st).thrown with
    | some e => simp [suppressedAfterDispatch]
    | none =>
      by_cases hc : (doRound cfg tools env st).cont = true
      · simp only [hc, if_pos]
        unfold suppressedAfterDispatch
        rw [ih (doRound cfg tools env st).st, Bool.and_true]
        by_cases hd : ((doRound cfg tools env st).log.toolLogs.any isDispatchLog) = true
        · by_cases hol : cfg.isOllama = true
          · have hhv : (doRound cfg tools env st).st.haveToolResults = true :=
              doRound_Q cfg tools env st hd
            have hall := runLoop_all_inv cfg tools env
              (fun l => l.requests.all reqDisabled)
              (fun s => s.haveToolResults = true)
              (fun s hs => doRound_mono cfg tools env s hs)
              (fun s hs => doRound_disabled cfg tools env s hol hs)
              n _ hhv
            rw [hd, hall]
            simp
          · exfalso
            simp only [Bool.not_eq_true] at hol
            have hnil : (doRound cfg tools env st).log.toolLogs = [] :=
              doRound_toolLogs_nonOllama cfg tools env st hol
            rw [hnil] at hd
            simp at hd
        · simp only [Bool.not_eq_true] at hd
          rw [hd]
          simp
      · simp only [Bool.not_eq_true] at hc
        simp [hc, suppressedAfterDispatch]


theorem generateResponse_state (cfg : GenCfg) (tools : Option (List ToolDef)) (env : GenEnv)
    (msgs : List RMsg) :
    (generateResponse cfg tools env msgs).2.1
        = (runLoop cfg tools env maxRounds (initState msgs)).st ∧
    (generateResponse cfg tools env msgs).2.2
        = (runLoop cfg tools env maxRounds (initState msgs)).logs := by
  unfold generateResponse
  cases h : (runLoop cfg tools env maxRounds (initState msgs)).thrown <;> simp [h]

/-- C2: for every environment, configuration and message history, the round
loop of `generateResponse` executes at most 3 rounds (`maxRounds`); every
round except possibly the last encountered a tool call (the counter is
incremented only after such a round, and a round without a tool call ends
the loop); and the final round counter equals the number of tool-call
rounds. -/
theorem c2_rounds_bounded (cfg : GenCfg) (tools : Option (List ToolDef)) (env : GenEnv)
    (msgs : List RMsg) :
    (generateResponse cfg tools env msgs).2.2.length ≤ maxRounds ∧
    ((generateResponse cfg tools env msgs).2.2.dropLast.all fun l => l.encountered) = true ∧
    (generateResponse cfg tools env msgs).2.1.rounds
      = ((generateResponse cfg tools env msgs).2.2.filter fun l => l.encountered).length := by
  obtain ⟨h1, h2⟩ := generateResponse_state cfg tools env msgs
  rw [h1, h2]
  refine ⟨runLoop_length cfg tools env maxRounds (initState msgs),
          runLoop_dropLast_enc cfg tools env maxRounds (initState msgs), ?_⟩
  have := runLoop_rounds cfg tools env maxRounds (initState msgs)
  simpa [initState] using this

/-- C3: within one turn, tools are offered only while no tool result has been
produced: after any round that dispatched a tool call, every request of every
later round (streaming and non-streaming retry alike) omits the tool list and
sets `tool_choice` to `'none'`, and this suppression persists to the end of
the turn. -/
theorem c3_tools_suppressed_after_dispatch (cfg : GenCfg) (tools : Option (List ToolDef))
    (env : GenEnv) (msgs : List RMsg) :
    suppressedAfterDispatch (generateResponse cfg tools env msgs).2.2 = true := by
  rw [(generateResponse_state cfg tools env msgs).2]
  exact runLoop_suppressed cfg tools env maxRounds (initState msgs)

/-- C4: every round issues exactly one streaming request, followed by exactly
one non-streaming retry of the same endpoint if and only if the round
streamed zero characters, encountered no tool call and did not throw. -/
theorem c4_single_nonstream_retry (cfg : GenCfg) (tools : Option (List ToolDef))
    (env : GenEnv) (msgs : List RMsg) :
    ((generateResponse cfg tools env msgs).2.2.all retryShape) = true := by
  rw [(generateResponse_state cfg tools env msgs).2]
  exact runLoop_all_inv cfg tools env retryShape (fun _ => True)
    (fun _ _ => trivial) (fun st _ => doRound_retryShape cfg tools env st)
    maxRounds (initState msgs) trivial


/-! ### Claim C1: post-loop summary synthesis -/

theorem synthSummary_ne_nil (j : Json) : synthSummary j ≠ [] := by
  intro h
  simp only [synthSummary] at h
  exact absurd (List.append_eq_nil.mp h).2 (by decide)

/-- C1: when the loop finished without throwing, the accumulated response
text is empty and at least one tool call succeeded (dispatched with a result
carrying the success signal) — under the documented backend contract that
solver responses are JSON objects — the deterministic summary built by
`synthSummary` from the last tool result becomes the response, and the caller
receives a non-empty string. -/
theorem c1_empty_text_synthesizes_summary (cfg : GenCfg) (tools : Option (List ToolDef))
    (env : GenEnv) (msgs : List RMsg)
    (henv : EnvSolverObjs env)
    (hthr : (runLoop cfg tools env maxRounds (initState msgs)).thrown = none)
    (hempty : (runLoop cfg tools env maxRounds (initState msgs)).st.fullResponse = [])
    (hsucc : ((runLoop cfg tools env maxRounds (initState msgs)).logs.any
        fun rl => rl.toolLogs.any isSuccessLog) = true) :
    ∃ j, (runLoop cfg tools env maxRounds (initState msgs)).st.lastToolResult = some j ∧
      postLoopText (runLoop cfg tools env maxRounds (initState msgs)).st = synthSummary j ∧
      (generateResponse cfg tools env msgs).1
        = Except.ok (cleanThinkingContent (synthSummary j)) ∧
      cleanThinkingContent (synthSummary j) ≠ [] := by
  have hdisp : ((runLoop cfg tools env maxRounds (initState msgs)).logs.any
      fun rl => rl.toolLogs.any isDispatchLog) = true := by
    rw [List.any_eq_true] at hsucc ⊢
    obtain ⟨rl, hmem, hl⟩ := hsucc
    refine ⟨rl, hmem, ?_⟩
    rw [List.any_eq_true] at hl ⊢
    obtain ⟨tl, hmem2, htl⟩ := hl
    refine ⟨tl, hmem2, ?_⟩
    cases tl with
    | dispatched r => rfl
    | argsParseError => exact absurd htl (by simp [isSuccessLog])
  have hhave := runLoop_dispatch_have cfg tools env maxRounds (initState msgs) hdisp
  have hlg : LastGood (runLoop cfg tools env maxRounds (initState msgs)).st :=
    runLoop_last cfg tools env henv maxRounds (initState msgs)
      ⟨fun h => by simp [initState] at h, fun j hj => by simp [initState] at hj⟩
  obtain ⟨j, hj⟩ := Option.isSome_iff_exists.mp (hlg.1 hhave)
  obtain ⟨fs, hfs⟩ := hlg.2 j hj
  have hcond : synthCond (runLoop cfg tools env maxRounds (initState msgs)).st = true := by
    unfold synthCond
    rw [hempty, hhave, hj, hfs]
    rfl
  have hpost : postLoopText (runLoop cfg tools env maxRounds (initState msgs)).st
      = synthSummary j := by
    unfold postLoopText
    split
    · rw [hj]
    · next hno => exact absurd hcond hno
  have hgen : (generateResponse cfg tools env msgs).1
      = Except.ok (cleanThinkingContent
          (postLoopText (runLoop cfg tools env maxRounds (initState msgs)).st)) := by
    simp [generateResponse, hthr]
  exact ⟨j, hj, hpost, by rw [hgen, hpost],
         cleanThinkingContent_ne_nil _ (synthSummary_ne_nil j)⟩

/-- Witness for C1 at the concrete environment: the hypotheses hold and a
summary is synthesized. -/
theorem c1_empty_text_synthesizes_summary_witness :
    ∃ j, (runLoop cfgW1 none envW1 maxRounds (initState [])).st.lastToolResult = some j ∧
      postLoopText (runLoop cfgW1 none envW1 maxRounds (initState [])).st = synthSummary j ∧
      (generateResponse cfgW1 none envW1 []).1
        = Except.ok (cleanThinkingContent (synthSummary j)) ∧
      cleanThinkingContent (synthSummary j) ≠ [] :=
  c1_empty_text_synthesizes_summary cfgW1 none envW1 []
    (fun _ => ⟨okFieldsW1, rfl⟩) rfl rfl rfl

/-! ### Claim C10: residual-buffer tool calls -/

theorem applyOllamaLine_noTC (env : GenEnv) (st : LoopState) (a : Acc) (line : JStr)
    (hline : lineToolCallsOllama line = []) (h : C10Acc st a) :
    C10Acc st (applyOllamaLine env a line) := by
  unfold applyOllamaLine
  cases hp : jsonParse line with
  | none => exact h
  | some parsed =>
    dsimp only
    by_cases hn : parsed.isNull = true
    · rw [if_pos hn]; exact h
    · rw [if_neg hn]
      have htc : toolCallsOf parsed = [] := by
        unfold lineToolCallsOllama at hline
        rw [hp] at hline
        dsimp only at hline
        rwa [if_neg hn] at hline
      unfold applyOllamaToolCalls
      rw [htc]
      simp only [List.isEmpty_nil, if_true]
      split
      · exact h
      · exact h

theorem roundAcc_residual_only (cfg : GenCfg) (env : GenEnv) (st : LoopState)
    (hol : cfg.isOllama = true)
    (hlines : ∀ line ∈ (env.chat st.rounds).lines, lineToolCallsOllama line = [])
    (hres : residualToolCallsOllama (env.chat st.rounds).residual ≠ [])
    (htrim : trimStr (env.chat st.rounds).residual ≠ []) :
    C10Acc st (roundAcc cfg env st) ∧ (roundAcc cfg env st).encountered = true := by
  have hfold : C10Acc st ((env.chat st.rounds).lines.foldl (roundStep cfg env) (initAcc st)) := by
    apply foldl_pres_mem (roundStep cfg env) (C10Acc st) (env.chat st.rounds).lines
    · intro a line hmem ha
      unfold roundStep
      rw [hol]
      simp only [if_true]
      exact applyOllamaLine_noTC env st a line (hlines line hmem) ha
    · exact ⟨rfl, rfl, rfl, rfl, rfl⟩
  have hne : (env.chat st.rounds).residual ≠ [] := by
    intro hz
    exact htrim (by rw [hz]; rfl)
  unfold roundAcc applyResidual
  rw [if_neg hne, if_neg htrim, if_pos hol]
  unfold applyResidualOllama
  cases hp : jsonParse (env.chat st.rounds).residual with
  | none =>
    exfalso
    apply hres
    unfold residualToolCallsOllama
    rw [hp]
  | some p =>
    dsimp only
    by_cases hn : p.isNull = true
    · exfalso
      apply hres
      unfold residualToolCallsOllama
      rw [hp]
      dsimp only
      rw [if_pos hn]
    · rw [if_neg hn]
      have htc : toolCallsOf p ≠ [] := by
        unfold residualToolCallsOllama at hres
        rw [hp] at hres
        dsimp only at hres
        rwa [if_neg hn] at hres
      have hemp : ¬((toolCallsOf p).isEmpty = true) := by
        rw [List.isEmpty_iff]
        exact htc
      unfold residualMarkToolCalls
      rw [if_neg hemp]
      constructor
      · split
        · exact hfold
        · exact hfold
      · rfl

/-- C10: a tool call that appears only in the residual buffered record parsed
after the stream ends is detected — the round is marked as having encountered
a tool call and the loop takes the tool-round branch — but it is never
executed: no solver backend request is issued, the tool-call callback is not
invoked, no per-call log entry is produced, and the only message appended to
the rolling list is the steering message (in particular no tool-role result
message). -/
theorem c10_residual_toolcall_detected_not_executed (cfg : GenCfg)
    (tools : Option (List ToolDef)) (env : GenEnv) (st : LoopState)
    (hol : cfg.isOllama = true)
    (hok : (env.chat st.rounds).ok = true)
    (hlines : ∀ line ∈ (env.chat st.rounds).lines, lineToolCallsOllama line = [])
    (hres : residualToolCallsOllama (env.chat st.rounds).residual ≠ [])
    (htrim : trimStr (env.chat st.rounds).residual ≠ []) :
    (doRound cfg tools env st).log.encountered = true ∧
    (doRound cfg tools env st).cont = true ∧
    (doRound cfg tools env st).log.solverCalls = [] ∧
    (doRound cfg tools env st).log.callbacks = 0 ∧
    (doRound cfg tools env st).log.toolLogs = [] ∧
    (doRound cfg tools env st).st.rolling = st.rolling ++ [nudgeMsg] ∧
    (doRound cfg tools env st).st.haveToolResults = st.haveToolResults ∧
    (doRound cfg tools env st).log.requests.length = 1 := by
  obtain ⟨ha, henc⟩ := roundAcc_residual_only cfg env st hol hlines hres htrim
  rcases doRound_thrown_cases cfg tools env st with ⟨hbad, _⟩ | ⟨_, hd⟩
  · rw [hok] at hbad
    exact absurd hbad (by simp)
  · rw [hd]
    unfold finishRound
    rw [if_pos henc]
    refine ⟨rfl, rfl, ha.2.2.2.1, ha.2.2.2.2, ha.2.2.1, ?_, ha.2.1, rfl⟩
    show (roundAcc cfg env st).st.rolling ++ [nudgeMsg] = st.rolling ++ [nudgeMsg]
    rw [ha.1]

/-- Witness for C10 at the concrete environment. -/
theorem c10_residual_toolcall_detected_not_executed_witness :
    (doRound cfgW10 none envW10 (initState [])).log.encountered = true ∧
    (doRound cfgW10 none envW10 (initState [])).cont = true ∧
    (doRound cfgW10 none envW10 (initState [])).log.solverCalls = [] ∧
    (doRound cfgW10 none envW10 (initState [])).log.callbacks = 0 ∧
    (doRound cfgW10 none envW10 (initState [])).log.toolLogs = [] ∧
    (doRound cfgW10 none envW10 (initState [])).st.rolling
      = (initState []).rolling ++ [nudgeMsg] ∧
    (doRound cfgW10 none envW10 (initState [])).st.haveToolResults
      = (initState []).haveToolResults ∧
    (doRound cfgW10 none envW10 (initState [])).log.requests.length = 1 :=
  c10_residual_toolcall_detected_not_executed cfgW10 none envW10 (initState [])
    rfl rfl (by intro line h; simp [envW10] at h)
    (by
      intro h
      rw [show residualToolCallsOllama (envW10.chat (initState []).rounds).residual
          = [Json.jobj [(str "name", Json.jstr (str "x"))]] from rfl] at h
      exact List.noConfusion h)
    (by decide)

end VastuNetra
